import Mathlib

/-!
# MailMonitoring: the round-trip probe of `mailTester.go`

A shallow embedding of `main` of `mailTester.go`.  The program talks to an SMTP
server and to an IMAP server; every call into `net/smtp`, `crypto/tls`,
`github.com/mxk/go-imap/imap`, `time` and `fmt` is recorded as an `Event` of the
run's trace, and what the outside answers to each call is read from a `World`.
`main` is then a total function from the two configuration records and a world
to the trace of the run and the exit status of the process.
-/

namespace MailMonitoring

/-! ## Configuration (lines 15-37), after `flag.Parse` -/

/-- The record `smtpCfg` (lines 15-27), with the flag values dereferenced. -/
structure smtpCfg where
  server : String
  serverPort : Int
  helloName : String
  username : String
  password : String
  cram : Bool
  sTARTLS : Bool
  mailFrom : String
  rcpt : String
  subject : String
  SSLonConnect : Bool
  deriving DecidableEq, Repr

/-- The record `imapCfg` (lines 29-37), with the flag values dereferenced. -/
structure imapCfg where
  server : String
  serverPort : Int
  username : String
  password : String
  imapTLS : Bool
  debug : Bool
  silent : Bool
  deriving DecidableEq, Repr

/-! ## Library values -/

/-- The wall-clock reading `time.Now()`, as the civil fields that
`Time.Format` prints (year, month, day, hour, minute, second). -/
structure Time where
  year : Nat
  month : Nat
  day : Nat
  hour : Nat
  minute : Nat
  second : Nat
  deriving DecidableEq, Repr

/-- A civil time as the clock produces it: a four-digit year and fields in
their calendar ranges. -/
def Time.valid (t : Time) : Prop :=
  t.year < 10000 ∧ 1 ≤ t.month ∧ t.month ≤ 12 ∧ 1 ≤ t.day ∧ t.day ≤ 31 ∧
    t.hour < 24 ∧ t.minute < 60 ∧ t.second < 60

instance (t : Time) : Decidable t.valid := by
  unfold Time.valid; infer_instance

/-- The decimal digit of `d % 10` as a character. -/
def digitChar (d : Nat) : Char := Char.ofNat (48 + d % 10)

/-- The last `width` decimal digits of `x`, most significant first. -/
def lowDigits : Nat → Nat → List Char
  | 0, _ => []
  | width + 1, x => lowDigits width (x / 10) ++ [digitChar x]

/-- The decimal digits of `x`, at least one, most significant first; `fuel`
bounds the number of digits. -/
def allDigits : Nat → Nat → List Char
  | 0, x => [digitChar x]
  | fuel + 1, x => if x < 10 then [digitChar x] else allDigits fuel (x / 10) ++ [digitChar x]

/-- The helper `appendInt` of package `time` on a non-negative number: `x` in
decimal, padded with zeros on the left up to `width` characters, and longer
than `width` when `x` needs more digits. -/
def appendInt (x width : Nat) : String :=
  if x < 10 ^ width then String.mk (lowDigits width x) else String.mk (allDigits x x)

/-- The call `t.Format("20060102150405")`: the layout is the long year, then
the zero-padded month, day, hour, minute and second. -/
def Time.Format20060102150405 (t : Time) : String :=
  appendInt t.year 4 ++ appendInt t.month 2 ++ appendInt t.day 2 ++
    appendInt t.hour 2 ++ appendInt t.minute 2 ++ appendInt t.second 2

/-- The call `strconv.Itoa`. -/
def Itoa (n : Int) : String := toString n

/-- The authentication mechanism built at lines 179-183. -/
inductive Auth where
  | CRAMMD5Auth (username secret : String)
  | PlainAuth (identity username password host : String)
  deriving DecidableEq, Repr

/-- The type `imap.SeqSet`, as the numbers it holds. -/
abbrev SeqSet := List Nat

/-- The call `imap.NewSeqSet("")`: the empty set. -/
def NewSeqSet : SeqSet := []

/-- The call `set.AddNum(n)`: `n` joins the set, which keeps no duplicate. -/
def SeqSet.AddNum (set : SeqSet) (n : Nat) : SeqSet :=
  if n ∈ set then set else set ++ [n]

/-- How `fmt` prints a `[]uint32` with the default verb: `[1 2 3]`. -/
def fmtSlice (xs : List Nat) : String :=
  "[" ++ " ".intercalate (xs.map toString) ++ "]"

/-! ## Events and the world -/

/-- One call of `main` into a library, with the arguments it passes. -/
inductive Event where
  | imapDialTLS (addr : String)
  | imapDial (addr : String)
  | imapLogin (username password : String)
  | timeNow
  | tlsDial (network addr : String)
  | smtpNewClient (host : String)
  | smtpDial (addr : String)
  | smtpHello (localName : String)
  | smtpStartTLS
  | smtpAuth (a : Auth)
  | smtpMail (sender : String)
  | smtpRcpt (recipient : String)
  | smtpData
  | smtpWrite (msg : String)
  | smtpClose
  | smtpQuit
  | imapSelect (mbox : String) (readonly : Bool)
  | imapSend (name field : String)
  | sleep (seconds : Nat)
  | stdout (text : String)
  | stderr (text : String)
  | imapUIDStore (set : SeqSet) (item value : String)
  | imapExpunge
  | imapLogout
  deriving DecidableEq, Repr

/-- What the outside answers to each call of a run: `none` is a nil error,
`some e` an error whose text is `e`.  The poll attempts are numbered by the
value of `wait`, from 0; the answer to a search is the error or the list
`cmd.Data`, each response given by its `SearchResults()`.  The two `since`
fields are `int(time.Since(start).Seconds())` at lines 236 and 270-272. -/
structure World where
  imapDialTLS : Option String
  imapDial : Option String
  imapLogin : Option String
  now : Time
  tlsDial : Option String
  smtpNewClient : Option String
  smtpDial : Option String
  smtpHello : Option String
  smtpStartTLS : Option String
  smtpAuth : Option String
  smtpMail : Option String
  smtpRcpt : Option String
  smtpData : Option String
  smtpWrite : Option String
  smtpClose : Option String
  smtpQuit : Option String
  sinceSent : Int
  imapSelect : Nat → Option String
  imapSearch : Nat → Except String (List (List Nat))
  sinceEnd : Int
  imapUIDStore : Option String
  imapExpunge : Option String

/-- The observable result of a run: the calls in the order they were made and
the exit status of the process. -/
structure Outcome where
  trace : List Event
  exitCode : Nat
  deriving DecidableEq, Repr

/-! ## The program -/

/-- A call followed by `if err != nil { fmt.Fprintf(os.Stderr, ...); os.Exit(1) }`:
the call is made; on an error the message goes to the error stream and the
process exits with status 1, otherwise the run goes on with `k`. -/
def fatal (ev : Event) (err : Option String) (msg : String → String) (k : Outcome) : Outcome :=
  match err with
  | some e => ⟨[ev, Event.stderr (msg e)], 1⟩
  | none => ⟨ev :: k.trace, k.exitCode⟩

/-- A call whose result does not decide how the run goes on. -/
def emit (evs : List Event) (k : Outcome) : Outcome :=
  ⟨evs ++ k.trace, k.exitCode⟩

/-- The correlation tag: `start.Format("20060102150405") + *smtpconf.subject`
(lines 215 and 250). -/
def tag (smtpconf : smtpCfg) (start : Time) : String :=
  start.Format20060102150405 ++ smtpconf.subject

/-- The message `smtpMsg` of lines 213-220. -/
def smtpMsg (smtpconf : smtpCfg) (start : Time) : String :=
  "From: " ++ smtpconf.mailFrom ++ "\nTo: " ++ smtpconf.rcpt ++ "\nSubject: " ++
    start.Format20060102150405 ++ smtpconf.subject ++
    "\n\nTest message to monitor mail delivery\n.\n\n"

/-- The field of the `UID SEARCH` command of line 250. -/
def searchField (smtpconf : smtpCfg) (start : Time) : String :=
  "SUBJECT \"" ++ start.Format20060102150405 ++ smtpconf.subject ++ "\""

/-- Lines 111-124: the IMAP connection, over TLS when `imapTLS` is set. -/
def imapConnect (imapconf : imapCfg) (w : World) (k : Outcome) : Outcome :=
  if imapconf.imapTLS then
    fatal (Event.imapDialTLS (imapconf.server ++ ":" ++ Itoa imapconf.serverPort)) w.imapDialTLS
      (fun e => "Error connecting to IMAP server (" ++ imapconf.server ++ "): " ++ e ++ "\n") k
  else
    fatal (Event.imapDial (imapconf.server ++ ":" ++ Itoa imapconf.serverPort)) w.imapDial
      (fun e => "Error connecting to IMAP server (" ++ imapconf.server ++ "): " ++ e ++ "\n") k

/-- Lines 140-159: the SMTP connection, over TLS from the start when
`SSLonConnect` is set. -/
def smtpConnect (smtpconf : smtpCfg) (w : World) (k : Outcome) : Outcome :=
  if smtpconf.SSLonConnect then
    fatal (Event.tlsDial "tcp" (smtpconf.server ++ ":" ++ Itoa smtpconf.serverPort)) w.tlsDial
      (fun e => "Error establishing SSL connection to SMTP server (" ++ smtpconf.server ++
        "): " ++ e ++ "\n") <|
    fatal (Event.smtpNewClient smtpconf.server) w.smtpNewClient
      (fun e => "Error establishing connection to SMTP server (" ++ smtpconf.server ++
        "): " ++ e ++ "\n") k
  else
    fatal (Event.smtpDial (smtpconf.server ++ ":" ++ Itoa smtpconf.serverPort)) w.smtpDial
      (fun e => "Error connecting to SMTP server (" ++ smtpconf.server ++ "): " ++ e ++ "\n") k

/-- Lines 167-174: the upgrade of the session, only when `sTARTLS` is set. -/
def smtpSecure (smtpconf : smtpCfg) (w : World) (k : Outcome) : Outcome :=
  if smtpconf.sTARTLS then
    fatal Event.smtpStartTLS w.smtpStartTLS
      (fun e => "Error starting STARTTLS session (" ++ smtpconf.server ++ "): " ++ e ++ "\n") k
  else k

/-- Lines 179-183: the mechanism `a`. -/
def chooseAuth (smtpconf : smtpCfg) : Auth :=
  if smtpconf.cram then
    Auth.CRAMMD5Auth smtpconf.username smtpconf.password
  else
    Auth.PlainAuth "" smtpconf.username smtpconf.password smtpconf.server

/-- Lines 178-190: the authentication, only when a user name is given. -/
def smtpLogin (smtpconf : smtpCfg) (w : World) (k : Outcome) : Outcome :=
  if smtpconf.username ≠ "" then
    fatal (Event.smtpAuth (chooseAuth smtpconf)) w.smtpAuth
      (fun e => "Error authenticating to SMTP server (" ++ smtpconf.server ++ "): " ++ e ++ "\n") k
  else k

/-- Lines 137-238: the submission of the message, from the connection to
`Quit`, and the time print of the debug mode. -/
def smtpSubmit (smtpconf : smtpCfg) (imapconf : imapCfg) (w : World) (start : Time)
    (k : Outcome) : Outcome :=
  smtpConnect smtpconf w <|
  fatal (Event.smtpHello smtpconf.helloName) w.smtpHello
    (fun e => "Error sending hello command (" ++ smtpconf.server ++ "): " ++ e ++ "\n") <|
  smtpSecure smtpconf w <|
  smtpLogin smtpconf w <|
  fatal (Event.smtpMail smtpconf.mailFrom) w.smtpMail
    (fun e => "Error sending MAIL FROM command (" ++ smtpconf.server ++ "): " ++ e ++ "\n") <|
  fatal (Event.smtpRcpt smtpconf.rcpt) w.smtpRcpt
    (fun e => "Error sending Rcpt to command (" ++ smtpconf.server ++ "): " ++ e ++ "\n") <|
  fatal Event.smtpData w.smtpData
    (fun e => "Error opening DATA writer (" ++ smtpconf.server ++ "): " ++ e ++ "\n") <|
  fatal (Event.smtpWrite (smtpMsg smtpconf start)) w.smtpWrite
    (fun e => "Error sending data to server (" ++ smtpconf.server ++ "): " ++ e ++ "\n") <|
  fatal Event.smtpClose w.smtpClose
    (fun e => "Error sending data to SMTP server (" ++ smtpconf.server ++ "): " ++ e ++ "\n") <|
  emit [Event.smtpQuit] <|
  emit (if imapconf.debug then
      [Event.stdout ("Time to send message from SMTP server (" ++ smtpconf.server ++ "): " ++
        toString w.sinceSent ++ "\n")]
    else []) k

/-- The state of the poll loop when it is left: the calls it made, whether it
left through `os.Exit(1)`, and the variables `uidslice`, `set` and `wait`. -/
structure PollResult where
  trace : List Event
  exited : Bool
  uidslice : List Nat
  set : SeqSet
  wait : Nat
  deriving DecidableEq, Repr

/-- Lines 262-264: every number of `uidslice` is added to `set`. -/
def addAll (set : SeqSet) (uidslice : List Nat) : SeqSet :=
  uidslice.foldl SeqSet.AddNum set

/-- Lines 256-265, `for _, rsp := range cmd.Data`: each response overwrites
`uidslice` with its search results, prints them in debug mode and adds them to
`set`.  The result is the prints and the final `uidslice` and `set`. -/
def rangeData (imapconf : imapCfg) : List (List Nat) → List Nat → SeqSet →
    List Event × List Nat × SeqSet
  | [], uidslice, set => ([], uidslice, set)
  | rsp :: rest, _, set =>
    let uidslice := rsp
    let out := if imapconf.debug then
        [Event.stdout ("Found messages:  " ++ fmtSlice uidslice ++ "\n")]
      else []
    let r := rangeData imapconf rest uidslice (addAll set uidslice)
    (out ++ r.1, r.2.1, r.2.2)

/-- Lines 242-267, `for ; (len(uidslice) == 0) && wait < 200; wait++`.  The
recursion is on `200 - wait`, the number of iterations the bound still allows,
so that `wait = 200 - remaining` and `wait < 200` is `remaining ≠ 0`. -/
def pollLoop (smtpconf : smtpCfg) (imapconf : imapCfg) (w : World) (start : Time) :
    Nat → List Nat → SeqSet → PollResult
  | 0, uidslice, set => ⟨[], false, uidslice, set, 200⟩
  | remaining + 1, uidslice, set =>
    let wait := 200 - (remaining + 1)
    if uidslice.length == 0 then
      match w.imapSelect wait with
      | some e =>
        ⟨[Event.imapSelect "INBOX" false,
          Event.stderr ("Error selecting INBOX folder (" ++ imapconf.server ++ "): " ++ e ++ "\n")],
          true, uidslice, set, wait⟩
      | none =>
        match w.imapSearch wait with
        | Except.error e =>
          ⟨[Event.imapSelect "INBOX" false,
            Event.imapSend "UID SEARCH" (searchField smtpconf start),
            Event.stderr ("Error sending search command to IMAP session (" ++ imapconf.server ++
              "): " ++ e ++ "\n")],
            true, uidslice, set, wait⟩
        | Except.ok data =>
          let d := rangeData imapconf data uidslice set
          let r := pollLoop smtpconf imapconf w start remaining d.2.1 d.2.2
          ⟨[Event.imapSelect "INBOX" false,
            Event.imapSend "UID SEARCH" (searchField smtpconf start)] ++ d.1 ++
            [Event.sleep 1] ++ r.trace, r.exited, r.uidslice, r.set, r.wait⟩
    else ⟨[], false, uidslice, set, wait⟩

/-- Lines 269-273: the elapsed time, with its words unless `silent` is set. -/
def report (imapconf : imapCfg) (seconds : Int) : String :=
  if !imapconf.silent then
    "Time to send and recieve message with IMAP (" ++ imapconf.server ++ "): " ++
      toString seconds ++ "\n"
  else
    toString seconds ++ "\n"

/-- Lines 275-286: the found messages are flagged as deleted and expunged; an
error of either call is written to the error stream and the run goes on. -/
def cleanup (imapconf : imapCfg) (w : World) (set : SeqSet) : List Event :=
  [Event.imapUIDStore set "+FLAGS" "(\\Deleted)"] ++
  (match w.imapUIDStore with
   | some e => [Event.stderr ("Error setting Deleted flag for messages (" ++ imapconf.server ++
       "): " ++ e ++ "\n ")]
   | none => []) ++
  [Event.imapExpunge] ++
  (match w.imapExpunge with
   | some e => [Event.stderr ("Error deleting messages (" ++ imapconf.server ++ "): " ++ e ++ "\n")]
   | none => []) ++
  [Event.imapLogout]

/-- Lines 240-286: the poll loop, then the report and the cleanup unless the
loop has ended the process. -/
def pollAndCleanup (smtpconf : smtpCfg) (imapconf : imapCfg) (w : World) (start : Time)
    (uidslice : List Nat) (set : SeqSet) : Outcome :=
  let r := pollLoop smtpconf imapconf w start 200 uidslice set
  if r.exited then ⟨r.trace, 1⟩
  else ⟨r.trace ++ [Event.stdout (report imapconf w.sinceEnd)] ++ cleanup imapconf w r.set, 0⟩

/-- The function `main` (lines 101-288), after `parseCmd`. -/
def main (smtpconf : smtpCfg) (imapconf : imapCfg) (w : World) : Outcome :=
  imapConnect imapconf w <|
  fatal (Event.imapLogin imapconf.username imapconf.password) w.imapLogin
    (fun e => "Error logging in to IMAP server (" ++ imapconf.server ++ "): " ++ e ++ "\n") <|
  let set := NewSeqSet
  let uidslice : List Nat := []
  emit [Event.timeNow] <|
  let start := w.now
  smtpSubmit smtpconf imapconf w start <|
  pollAndCleanup smtpconf imapconf w start uidslice set

/-! ## Observations on a trace -/

/-- A `SELECT` of a mailbox. -/
def Event.isSelect : Event → Bool
  | Event.imapSelect _ _ => true
  | _ => false

/-- A command sent with `imapClient.Send`: in `main`, a `UID SEARCH`. -/
def Event.isSearch : Event → Bool
  | Event.imapSend _ _ => true
  | _ => false

/-- A `time.Sleep`. -/
def Event.isSleep : Event → Bool
  | Event.sleep _ => true
  | _ => false

/-- A write to the standard output. -/
def Event.isStdout : Event → Bool
  | Event.stdout _ => true
  | _ => false

/-- A write to the error stream. -/
def Event.isStderr : Event → Bool
  | Event.stderr _ => true
  | _ => false

/-- A cleanup command: `UID STORE` or `EXPUNGE`. -/
def Event.isCleanup : Event → Bool
  | Event.imapUIDStore _ _ _ => true
  | Event.imapExpunge => true
  | _ => false

/-- A command of the SMTP session, from `Hello` to `Quit`. -/
def Event.isSmtpCommand : Event → Bool
  | Event.smtpHello _ => true
  | Event.smtpStartTLS => true
  | Event.smtpAuth _ => true
  | Event.smtpMail _ => true
  | Event.smtpRcpt _ => true
  | Event.smtpData => true
  | Event.smtpWrite _ => true
  | Event.smtpClose => true
  | Event.smtpQuit => true
  | _ => false

/-- Any call to the SMTP side: the connection or a command of the session. -/
def Event.isSmtp : Event → Bool
  | Event.tlsDial _ _ => true
  | Event.smtpNewClient _ => true
  | Event.smtpDial _ => true
  | e => e.isSmtpCommand

/-- A connection to the IMAP server or a login on it. -/
def Event.isImapConnect : Event → Bool
  | Event.imapDialTLS _ => true
  | Event.imapDial _ => true
  | Event.imapLogin _ _ => true
  | _ => false

/-- The texts written to the standard output, in order. -/
def stdoutOf : List Event → List String
  | [] => []
  | Event.stdout text :: rest => text :: stdoutOf rest
  | _ :: rest => stdoutOf rest

/-! ## The run as a list of calls -/

/-- A call whose error ends the process: the call, the error the world
answers, and the message written for an error. -/
structure Step where
  ev : Event
  err : Option String
  msg : String → String

/-- The run of a list of calls, each as in `fatal`, before `k`. -/
def runSteps : List Step → Outcome → Outcome
  | [], k => k
  | st :: rest, k => fatal st.ev st.err st.msg (runSteps rest k)

/-- No call of the list is answered with an error. -/
def allOk (l : List Step) : Bool := l.all (fun st => st.err.isNone)

/-- The calls of the list that are made: all of them up to and including the
first one answered with an error. -/
def issuedEv : List Step → List Event
  | [] => []
  | st :: rest => if st.err.isSome then [st.ev] else st.ev :: issuedEv rest

/-- The message written for the first call answered with an error. -/
def failMsg : List Step → List Event
  | [] => []
  | st :: rest =>
    match st.err with
    | some e => [Event.stderr (st.msg e)]
    | none => failMsg rest

/-- The commands of the SMTP session from `Hello` to `Close` (lines 161-231),
each with the answer of the world. -/
def sessionSteps (smtpconf : smtpCfg) (w : World) (start : Time) : List Step :=
  [⟨Event.smtpHello smtpconf.helloName, w.smtpHello,
    fun e => "Error sending hello command (" ++ smtpconf.server ++ "): " ++ e ++ "\n"⟩] ++
  (if smtpconf.sTARTLS then
    [⟨Event.smtpStartTLS, w.smtpStartTLS,
      fun e => "Error starting STARTTLS session (" ++ smtpconf.server ++ "): " ++ e ++ "\n"⟩]
   else []) ++
  (if smtpconf.username ≠ "" then
    [⟨Event.smtpAuth (chooseAuth smtpconf), w.smtpAuth,
      fun e => "Error authenticating to SMTP server (" ++ smtpconf.server ++ "): " ++ e ++ "\n"⟩]
   else []) ++
  [⟨Event.smtpMail smtpconf.mailFrom, w.smtpMail,
    fun e => "Error sending MAIL FROM command (" ++ smtpconf.server ++ "): " ++ e ++ "\n"⟩,
   ⟨Event.smtpRcpt smtpconf.rcpt, w.smtpRcpt,
    fun e => "Error sending Rcpt to command (" ++ smtpconf.server ++ "): " ++ e ++ "\n"⟩,
   ⟨Event.smtpData, w.smtpData,
    fun e => "Error opening DATA writer (" ++ smtpconf.server ++ "): " ++ e ++ "\n"⟩,
   ⟨Event.smtpWrite (smtpMsg smtpconf start), w.smtpWrite,
    fun e => "Error sending data to server (" ++ smtpconf.server ++ "): " ++ e ++ "\n"⟩,
   ⟨Event.smtpClose, w.smtpClose,
    fun e => "Error sending data to SMTP server (" ++ smtpconf.server ++ "): " ++ e ++ "\n"⟩]

/-- The calls of the SMTP connection (lines 140-159), each with the answer of
the world. -/
def smtpConnectSteps (smtpconf : smtpCfg) (w : World) : List Step :=
  if smtpconf.SSLonConnect then
    [⟨Event.tlsDial "tcp" (smtpconf.server ++ ":" ++ Itoa smtpconf.serverPort), w.tlsDial,
      fun e => "Error establishing SSL connection to SMTP server (" ++ smtpconf.server ++
        "): " ++ e ++ "\n"⟩,
     ⟨Event.smtpNewClient smtpconf.server, w.smtpNewClient,
      fun e => "Error establishing connection to SMTP server (" ++ smtpconf.server ++
        "): " ++ e ++ "\n"⟩]
  else
    [⟨Event.smtpDial (smtpconf.server ++ ":" ++ Itoa smtpconf.serverPort), w.smtpDial,
      fun e => "Error connecting to SMTP server (" ++ smtpconf.server ++ "): " ++ e ++ "\n"⟩]

/-- The call that connects to the IMAP server (lines 111-124). -/
def imapDialEvent (imapconf : imapCfg) : Event :=
  if imapconf.imapTLS then
    Event.imapDialTLS (imapconf.server ++ ":" ++ Itoa imapconf.serverPort)
  else
    Event.imapDial (imapconf.server ++ ":" ++ Itoa imapconf.serverPort)

/-- The answer of the world to the IMAP connection. -/
def imapDialAnswer (imapconf : imapCfg) (w : World) : Option String :=
  if imapconf.imapTLS then w.imapDialTLS else w.imapDial

/-- The calls of lines 108-159, before the SMTP session: the IMAP connection
and login, the clock reading and the SMTP connection. -/
def connectSteps (smtpconf : smtpCfg) (imapconf : imapCfg) (w : World) : List Step :=
  [⟨imapDialEvent imapconf, imapDialAnswer imapconf w,
    fun e => "Error connecting to IMAP server (" ++ imapconf.server ++ "): " ++ e ++ "\n"⟩,
   ⟨Event.imapLogin imapconf.username imapconf.password, w.imapLogin,
    fun e => "Error logging in to IMAP server (" ++ imapconf.server ++ "): " ++ e ++ "\n"⟩,
   ⟨Event.timeNow, none, fun e => e⟩] ++ smtpConnectSteps smtpconf w

/-- The print of the debug mode at lines 235-238. -/
def debugSent (smtpconf : smtpCfg) (imapconf : imapCfg) (w : World) : List Event :=
  if imapconf.debug then
    [Event.stdout ("Time to send message from SMTP server (" ++ smtpconf.server ++ "): " ++
      toString w.sinceSent ++ "\n")]
  else []

/-! ## Vocabulary of the claims -/

/-- The SMTP submission fails at some stage: a call of the submission that the
configuration asks for is answered with an error. -/
def smtpFails (smtpconf : smtpCfg) (w : World) : Prop :=
  (smtpconf.SSLonConnect = true ∧ (w.tlsDial ≠ none ∨ w.smtpNewClient ≠ none)) ∨
  (smtpconf.SSLonConnect = false ∧ w.smtpDial ≠ none) ∨
  w.smtpHello ≠ none ∨
  (smtpconf.sTARTLS = true ∧ w.smtpStartTLS ≠ none) ∨
  (smtpconf.username ≠ "" ∧ w.smtpAuth ≠ none) ∨
  w.smtpMail ≠ none ∨ w.smtpRcpt ≠ none ∨ w.smtpData ≠ none ∨
  w.smtpWrite ≠ none ∨ w.smtpClose ≠ none

instance (smtpconf : smtpCfg) (w : World) : Decidable (smtpFails smtpconf w) := by
  unfold smtpFails; infer_instance

/-- The poll commands and sleeps of a trace, in order. -/
def pollEvents (t : List Event) : List Event :=
  t.filter (fun e => e.isSelect || e.isSearch || e.isSleep)

/-- The poll commands and sleeps of `m` complete attempts: each is a
`SELECT INBOX`, then the `UID SEARCH` for the tag, then a sleep of one second. -/
def completeAttempts (smtpconf : smtpCfg) (start : Time) : Nat → List Event
  | 0 => []
  | m + 1 =>
    [Event.imapSelect "INBOX" false, Event.imapSend "UID SEARCH" (searchField smtpconf start),
      Event.sleep 1] ++ completeAttempts smtpconf start m

/-- The seconds slept in a trace. -/
def slept : List Event → Nat
  | [] => 0
  | Event.sleep seconds :: rest => seconds + slept rest
  | _ :: rest => slept rest

/-- The search of attempt `k` (counted from 0) succeeds and returns no
identifier: the `SELECT` and the search give no error and every response of
`cmd.Data` is empty. -/
def emptyAttempt (w : World) (k : Nat) : Prop :=
  w.imapSelect k = none ∧ ∃ data, w.imapSearch k = Except.ok data ∧ ∀ b ∈ data, b = []

/-- Attempt `k` (counted from 0) completes and stops nothing: the `SELECT` and
the search give no error, and `cmd.Data` has no response or its last response
is empty, so that `uidslice` is empty after the attempt. -/
def missAttempt (w : World) (k : Nat) : Prop :=
  w.imapSelect k = none ∧ ∃ data, w.imapSearch k = Except.ok data ∧ data.getLastD [] = []

/-- The calls before the poll loop whose error ends the process. -/
def steps (smtpconf : smtpCfg) (imapconf : imapCfg) (w : World) : List Step :=
  connectSteps smtpconf imapconf w ++ sessionSteps smtpconf w w.now

/-- The poll loop as `main` runs it: 200 iterations at most, from an empty
`uidslice` and an empty `set`. -/
def poll (smtpconf : smtpCfg) (imapconf : imapCfg) (w : World) : PollResult :=
  pollLoop smtpconf imapconf w w.now 200 [] NewSeqSet

/-- The calls of a run before the poll loop when none of them fails: the
steps, `Quit` and the debug print. -/
def opening (smtpconf : smtpCfg) (imapconf : imapCfg) (w : World) : List Event :=
  (steps smtpconf imapconf w).map Step.ev ++ Event.smtpQuit :: debugSent smtpconf imapconf w

/-- The canonical sequence of SMTP commands that the configuration determines,
each with the answer of the world: `Hello`; `StartTLS` when STARTTLS is
configured; `Auth` when the user name is not empty, with CRAM-MD5 when the
cram flag is set and PLAIN otherwise; `Mail`; `Rcpt`; `Data`; `Write`; `Close`;
`Quit`, whose answer is not looked at. -/
def canonical (smtpconf : smtpCfg) (w : World) (start : Time) : List (Event × Option String) :=
  [(Event.smtpHello smtpconf.helloName, w.smtpHello)] ++
  (if smtpconf.sTARTLS then [(Event.smtpStartTLS, w.smtpStartTLS)] else []) ++
  (if smtpconf.username ≠ "" then
    [(Event.smtpAuth (if smtpconf.cram then
        Auth.CRAMMD5Auth smtpconf.username smtpconf.password
      else Auth.PlainAuth "" smtpconf.username smtpconf.password smtpconf.server), w.smtpAuth)]
   else []) ++
  [(Event.smtpMail smtpconf.mailFrom, w.smtpMail), (Event.smtpRcpt smtpconf.rcpt, w.smtpRcpt),
   (Event.smtpData, w.smtpData), (Event.smtpWrite (smtpMsg smtpconf start), w.smtpWrite),
   (Event.smtpClose, w.smtpClose), (Event.smtpQuit, none)]

/-- The commands of a sequence up to and including the first one that is
answered with an error. -/
def throughFirstFailure : List (Event × Option String) → List Event
  | [] => []
  | (c, err) :: rest => if err.isSome then [c] else c :: throughFirstFailure rest

/-! ## Example configurations and worlds -/

/-- A world in which every call succeeds, the clock reads `start`, and the
searches are answered by `search`. -/
def World.quiet (start : Time) (search : Nat → Except String (List (List Nat)))
    (sinceEnd : Int) : World :=
  { imapDialTLS := none, imapDial := none, imapLogin := none, now := start,
    tlsDial := none, smtpNewClient := none, smtpDial := none, smtpHello := none,
    smtpStartTLS := none, smtpAuth := none, smtpMail := none, smtpRcpt := none,
    smtpData := none, smtpWrite := none, smtpClose := none, smtpQuit := none,
    sinceSent := 0, imapSelect := fun _ => none, imapSearch := search,
    sinceEnd := sinceEnd, imapUIDStore := none, imapExpunge := none }

/-- A configuration of the SMTP side for the examples. -/
def smtpEx : smtpCfg :=
  { server := "mx.example.org", serverPort := 25, helloName := "probe", username := "",
    password := "", cram := false, sTARTLS := false, mailFrom := "probe@example.org",
    rcpt := "inbox@example.org", subject := "Delivery quality monitoring",
    SSLonConnect := false }

/-- A configuration of the IMAP side for the examples. -/
def imapEx : imapCfg :=
  { server := "imap.example.org", serverPort := 143, username := "inbox", password := "secret",
    imapTLS := false, debug := false, silent := false }

/-- A clock reading for the examples: 7 March 2024, 09:05:01. -/
def timeEx : Time := ⟨2024, 3, 7, 9, 5, 1⟩

/-- The example configuration with STARTTLS and CRAM-MD5 authentication. -/
def smtpTlsEx : smtpCfg :=
  { smtpEx with sTARTLS := true, username := "u", password := "p", cram := true }

/-- A world in which the first search is answered by two responses, the first
with the identifier 7 and the second empty, and every later search by one
response with the identifier 7. -/
def worldTwoResponses : World :=
  World.quiet timeEx (fun a => if a = 0 then Except.ok [[7], []] else Except.ok [[7]]) 2

/-- A world in which no search ever returns an identifier; the elapsed time
read at the end is 200 seconds. -/
def worldNeverFound : World := World.quiet timeEx (fun _ => Except.ok []) 200

/-- A world in which the searches return nothing until attempt 200 (number 199
from 0), which returns the identifier 7; the elapsed time read at the end is
200 seconds. -/
def worldFoundLast : World :=
  World.quiet timeEx (fun a => if a < 199 then Except.ok [] else Except.ok [[7]]) 200

/-- A world in which the IMAP server rejects the login. -/
def worldLoginRejected : World :=
  { World.quiet timeEx (fun _ => Except.ok [[7]]) 1 with imapLogin := some "NO LOGIN failed" }

/-- A world in which the SMTP server rejects `MAIL FROM`. -/
def worldMailRejected : World :=
  { World.quiet timeEx (fun _ => Except.ok [[7]]) 1 with smtpMail := some "550 rejected" }

/-- A world in which the server refuses the STARTTLS upgrade. -/
def worldTlsRefused : World :=
  { World.quiet timeEx (fun _ => Except.ok [[7]]) 1 with
    smtpStartTLS := some "454 TLS not available" }

/-! ## Lemmas on the steps of the run -/

/-- The run of a list of calls: the calls made, then what follows when no call
failed, and otherwise the message of the failure and the exit status 1. -/
theorem runSteps_eq (l : List Step) (k : Outcome) :
    runSteps l k =
      if allOk l then ⟨issuedEv l ++ k.trace, k.exitCode⟩ else ⟨issuedEv l ++ failMsg l, 1⟩ := by
  induction l with
  | nil => simp [runSteps, allOk, issuedEv]
  | cons st rest ih =>
    obtain ⟨ev, err, msg⟩ := st
    cases err with
    | some e => simp [runSteps, fatal, allOk, issuedEv, failMsg]
    | none =>
      simp only [runSteps, fatal, ih]
      by_cases h : allOk rest = true
      · have h' : allOk (⟨ev, none, msg⟩ :: rest) = true := by
          simpa [allOk] using h
        simp [h, h', issuedEv]
      · have h' : ¬ allOk (⟨ev, none, msg⟩ :: rest) = true := by
          simpa [allOk] using h
        simp [h, h', issuedEv, failMsg]

theorem issuedEv_of_allOk (l : List Step) (h : allOk l = true) :
    issuedEv l = l.map Step.ev := by
  induction l with
  | nil => rfl
  | cons st rest ih =>
    simp only [allOk, List.all_cons, Bool.and_eq_true] at h
    have h1 : st.err = none := by simpa using h.1
    simp [issuedEv, h1, ih (by simpa [allOk] using h.2)]

theorem issuedEv_sub (l : List Step) : ∀ e ∈ issuedEv l, e ∈ l.map Step.ev := by
  induction l with
  | nil => simp [issuedEv]
  | cons st rest ih =>
    intro e he
    simp only [issuedEv] at he
    split at he
    · simp at he; simp [he]
    · simp only [List.mem_cons] at he
      rcases he with rfl | he
      · simp
      · simpa using Or.inr (by simpa using ih e he)

theorem failMsg_stderr (l : List Step) : ∀ e ∈ failMsg l, ∃ t, e = Event.stderr t := by
  induction l with
  | nil => simp [failMsg]
  | cons st rest ih =>
    intro e he
    simp only [failMsg] at he
    split at he
    · simp at he; exact ⟨_, he⟩
    · exact ih e he

theorem issuedEv_append (l₁ l₂ : List Step) :
    issuedEv (l₁ ++ l₂) = if allOk l₁ then l₁.map Step.ev ++ issuedEv l₂ else issuedEv l₁ := by
  induction l₁ with
  | nil => simp [allOk, issuedEv]
  | cons st rest ih =>
    obtain ⟨ev, err, msg⟩ := st
    cases err with
    | some e => simp [issuedEv, allOk]
    | none =>
      simp only [List.cons_append, issuedEv, ih]
      by_cases h : allOk rest = true
      · have h' : allOk (⟨ev, none, msg⟩ :: rest) = true := by simpa [allOk] using h
        simp [h, h', ih]
      · have h' : ¬ allOk (⟨ev, none, msg⟩ :: rest) = true := by simpa [allOk] using h
        simp [h, h', ih]

theorem allOk_append (l₁ l₂ : List Step) : allOk (l₁ ++ l₂) = (allOk l₁ && allOk l₂) := by
  simp [allOk]

/-- The function `main` as a list of calls whose error ends the process,
followed by `Quit`, the debug print, the poll loop and the cleanup. -/
theorem main_eq (smtpconf : smtpCfg) (imapconf : imapCfg) (w : World) :
    main smtpconf imapconf w =
      runSteps (connectSteps smtpconf imapconf w ++ sessionSteps smtpconf w w.now)
        (emit (Event.smtpQuit :: debugSent smtpconf imapconf w)
          (pollAndCleanup smtpconf imapconf w w.now [] NewSeqSet)) := by
  unfold main smtpSubmit imapConnect smtpConnect smtpSecure smtpLogin connectSteps
    smtpConnectSteps imapDialEvent imapDialAnswer sessionSteps debugSent
  cases imapconf.imapTLS <;> cases smtpconf.SSLonConnect <;> cases smtpconf.sTARTLS <;>
    by_cases hu : smtpconf.username = "" <;>
    simp [hu, runSteps, emit, fatal]

/-- The calls before the poll loop whose error ends the process are neither
poll commands, nor sleeps, nor cleanup commands, nor prints. -/
theorem steps_events (smtpconf : smtpCfg) (imapconf : imapCfg) (w : World) (start : Time) :
    ∀ e ∈ (connectSteps smtpconf imapconf w ++ sessionSteps smtpconf w start).map Step.ev,
      e.isSelect = false ∧ e.isSearch = false ∧ e.isSleep = false ∧ e.isCleanup = false ∧
      e.isStdout = false ∧ e.isStderr = false := by
  intro e he
  unfold connectSteps smtpConnectSteps imapDialEvent imapDialAnswer sessionSteps at he
  cases h1 : imapconf.imapTLS <;> cases h2 : smtpconf.SSLonConnect <;>
    cases h3 : smtpconf.sTARTLS <;> by_cases hu : smtpconf.username = "" <;>
    simp [h1, h2, h3, hu] at he <;>
    rcases he with rfl | rfl | rfl | rfl | rfl | rfl | rfl | rfl | rfl | rfl | he <;>
    (try rcases he with rfl | rfl | he) <;> (try rcases he with rfl | rfl) <;>
    simp [Event.isSelect, Event.isSearch, Event.isSleep, Event.isCleanup, Event.isStdout,
      Event.isStderr]

/-! ## Lemmas on the poll loop -/

/-- Induction along the iterations of the poll loop: the loop is not entered
(bound reached, or `uidslice` not empty), or the attempt ends the process at
`SELECT` or at the search, or it completes and the loop goes on. -/
theorem pollLoop_induct (smtpconf : smtpCfg) (imapconf : imapCfg) (w : World) (start : Time)
    (P : Nat → List Nat → SeqSet → PollResult → Prop)
    (zero : ∀ u set, P 0 u set ⟨[], false, u, set, 200⟩)
    (stop : ∀ n u set, u ≠ [] → P (n + 1) u set ⟨[], false, u, set, 200 - (n + 1)⟩)
    (selectErr : ∀ n set e, w.imapSelect (200 - (n + 1)) = some e →
      P (n + 1) [] set ⟨[Event.imapSelect "INBOX" false,
        Event.stderr ("Error selecting INBOX folder (" ++ imapconf.server ++ "): " ++ e ++ "\n")],
        true, [], set, 200 - (n + 1)⟩)
    (searchErr : ∀ n set e, w.imapSelect (200 - (n + 1)) = none →
      w.imapSearch (200 - (n + 1)) = Except.error e →
      P (n + 1) [] set ⟨[Event.imapSelect "INBOX" false,
        Event.imapSend "UID SEARCH" (searchField smtpconf start),
        Event.stderr ("Error sending search command to IMAP session (" ++ imapconf.server ++
          "): " ++ e ++ "\n")],
        true, [], set, 200 - (n + 1)⟩)
    (step : ∀ n set data, w.imapSelect (200 - (n + 1)) = none →
      w.imapSearch (200 - (n + 1)) = Except.ok data →
      P n (rangeData imapconf data [] set).2.1 (rangeData imapconf data [] set).2.2
        (pollLoop smtpconf imapconf w start n (rangeData imapconf data [] set).2.1
          (rangeData imapconf data [] set).2.2) →
      P (n + 1) [] set
        ⟨[Event.imapSelect "INBOX" false,
          Event.imapSend "UID SEARCH" (searchField smtpconf start)] ++
          (rangeData imapconf data [] set).1 ++ [Event.sleep 1] ++
          (pollLoop smtpconf imapconf w start n (rangeData imapconf data [] set).2.1
            (rangeData imapconf data [] set).2.2).trace,
          (pollLoop smtpconf imapconf w start n (rangeData imapconf data [] set).2.1
            (rangeData imapconf data [] set).2.2).exited,
          (pollLoop smtpconf imapconf w start n (rangeData imapconf data [] set).2.1
            (rangeData imapconf data [] set).2.2).uidslice,
          (pollLoop smtpconf imapconf w start n (rangeData imapconf data [] set).2.1
            (rangeData imapconf data [] set).2.2).set,
          (pollLoop smtpconf imapconf w start n (rangeData imapconf data [] set).2.1
            (rangeData imapconf data [] set).2.2).wait⟩) :
    ∀ n u set, P n u set (pollLoop smtpconf imapconf w start n u set) := by
  intro n
  induction n with
  | zero => intro u set; exact zero u set
  | succ n ih =>
    intro u set
    cases u with
    | cons a u =>
      have := stop n (a :: u) set (by simp)
      rw [pollLoop]
      exact this
    | nil =>
      rw [pollLoop]
      simp only [List.length_nil, beq_self_eq_true, if_true]
      cases hsel : w.imapSelect (200 - (n + 1)) with
      | some e => exact selectErr n set e hsel
      | none =>
        cases hsea : w.imapSearch (200 - (n + 1)) with
        | error e => exact searchErr n set e hsel hsea
        | ok data => exact step n set data hsel hsea (ih _ _)

/-- The prints of the loop over `cmd.Data` are writes to the standard output. -/
theorem rangeData_trace (imapconf : imapCfg) (data : List (List Nat)) (u : List Nat)
    (set : SeqSet) : ∀ e ∈ (rangeData imapconf data u set).1, ∃ t, e = Event.stdout t := by
  induction data generalizing u set with
  | nil => simp [rangeData]
  | cons rsp rest ih =>
    intro e he
    simp only [rangeData, List.mem_append] at he
    rcases he with he | he
    · split at he
      · simp at he; exact ⟨_, he⟩
      · simp at he
    · exact ih _ _ e he

/-- Without the debug mode the loop over `cmd.Data` prints nothing. -/
theorem rangeData_quiet (imapconf : imapCfg) (h : imapconf.debug = false)
    (data : List (List Nat)) (u : List Nat) (set : SeqSet) :
    (rangeData imapconf data u set).1 = [] := by
  induction data generalizing u set with
  | nil => simp [rangeData]
  | cons rsp rest ih => simp [rangeData, h, ih]

/-- After the loop over `cmd.Data`, `uidslice` is the last response, or is
unchanged when there is no response. -/
theorem rangeData_uidslice (imapconf : imapCfg) (data : List (List Nat)) (u : List Nat)
    (set : SeqSet) : (rangeData imapconf data u set).2.1 = data.getLastD u := by
  induction data generalizing u set with
  | nil => simp [rangeData]
  | cons rsp rest ih =>
    simp only [rangeData]
    rw [ih, List.getLastD_cons]

theorem countP_rangeData (imapconf : imapCfg) (data : List (List Nat)) (u : List Nat)
    (set : SeqSet) (p : Event → Bool) (hp : ∀ t, p (Event.stdout t) = false) :
    (rangeData imapconf data u set).1.countP p = 0 := by
  rw [List.countP_eq_zero]
  intro e he
  obtain ⟨t, rfl⟩ := rangeData_trace imapconf data u set e he
  simp [hp]

/-- The calls of the poll loop: `SELECT INBOX`, the search for the tag, a sleep
of one second, a debug print, or the message of the error that ends the
process. -/
theorem pollLoop_events (smtpconf : smtpCfg) (imapconf : imapCfg) (w : World) (start : Time) :
    ∀ n u set, ∀ e ∈ (pollLoop smtpconf imapconf w start n u set).trace,
      e = Event.imapSelect "INBOX" false ∨
      e = Event.imapSend "UID SEARCH" (searchField smtpconf start) ∨
      e = Event.sleep 1 ∨
      ((∃ t, e = Event.stdout t) ∧ imapconf.debug = true) ∨
      ((∃ t, e = Event.stderr t) ∧
        (pollLoop smtpconf imapconf w start n u set).exited = true) := by
  apply pollLoop_induct smtpconf imapconf w start
    (fun _ _ _ r => ∀ e ∈ r.trace,
      e = Event.imapSelect "INBOX" false ∨
      e = Event.imapSend "UID SEARCH" (searchField smtpconf start) ∨
      e = Event.sleep 1 ∨
      ((∃ t, e = Event.stdout t) ∧ imapconf.debug = true) ∨
      ((∃ t, e = Event.stderr t) ∧ r.exited = true))
  · intro u set; simp
  · intro n u set _; simp
  · intro n set e _; simp
  · intro n set e _ _; simp
  · intro n set data _ _ ih e he
    simp only [List.mem_append, List.mem_cons, List.mem_singleton, List.not_mem_nil,
      or_false] at he
    rcases he with (((rfl | rfl) | he) | rfl) | he
    · simp
    · simp
    · obtain ⟨t, rfl⟩ := rangeData_trace imapconf data [] set e he
      cases hd : imapconf.debug
      · rw [rangeData_quiet imapconf hd] at he; simp at he
      · simp
    · simp
    · exact ih e he

/-- With a non-empty `uidslice` the loop is not entered. -/
theorem pollLoop_of_ne_nil (smtpconf : smtpCfg) (imapconf : imapCfg) (w : World) (start : Time)
    (n : Nat) (u : List Nat) (set : SeqSet) (hu : u ≠ []) :
    pollLoop smtpconf imapconf w start n u set = ⟨[], false, u, set, 200 - n⟩ := by
  cases n with
  | zero => simp [pollLoop]
  | succ n =>
    cases u with
    | nil => exact absurd rfl hu
    | cons a u => rw [pollLoop]; simp

theorem pollEvents_append (a b : List Event) :
    pollEvents (a ++ b) = pollEvents a ++ pollEvents b := by
  simp [pollEvents]

theorem pollEvents_eq_nil (t : List Event)
    (h : ∀ e ∈ t, e.isSelect = false ∧ e.isSearch = false ∧ e.isSleep = false) :
    pollEvents t = [] := by
  simp only [pollEvents, List.filter_eq_nil_iff]
  intro e he
  simp [h e he]

theorem pollEvents_rangeData (imapconf : imapCfg) (data : List (List Nat)) (u : List Nat)
    (set : SeqSet) : pollEvents (rangeData imapconf data u set).1 = [] := by
  apply pollEvents_eq_nil
  intro e he
  obtain ⟨t, rfl⟩ := rangeData_trace imapconf data u set e he
  simp [Event.isSelect, Event.isSearch, Event.isSleep]

theorem slept_pollEvents (t : List Event) : slept (pollEvents t) = slept t := by
  induction t with
  | nil => rfl
  | cons e rest ih =>
    cases e <;>
      simp_all [pollEvents, slept, List.filter_cons, Event.isSelect, Event.isSearch, Event.isSleep]

theorem slept_completeAttempts (smtpconf : smtpCfg) (start : Time) (m : Nat) :
    slept (completeAttempts smtpconf start m) = m := by
  induction m with
  | zero => rfl
  | succ m ih => simp [completeAttempts, slept, ih]; omega

/-- The shape of the poll loop for every world: complete attempts, then
possibly the attempt that ends the process, cut after its `SELECT` or after its
search; in all, no more attempts than iterations are left. -/
theorem pollLoop_shape (smtpconf : smtpCfg) (imapconf : imapCfg) (w : World) (start : Time) :
    ∀ n u set, ∃ m tail,
      pollEvents (pollLoop smtpconf imapconf w start n u set).trace =
        completeAttempts smtpconf start m ++ tail ∧
      ((tail = [] ∧ m ≤ n) ∨
        ((pollLoop smtpconf imapconf w start n u set).exited = true ∧ m + 1 ≤ n ∧
          (tail = [Event.imapSelect "INBOX" false] ∨
           tail = [Event.imapSelect "INBOX" false,
             Event.imapSend "UID SEARCH" (searchField smtpconf start)]))) := by
  apply pollLoop_induct smtpconf imapconf w start
    (fun n _ _ r => ∃ m tail,
      pollEvents r.trace = completeAttempts smtpconf start m ++ tail ∧
      ((tail = [] ∧ m ≤ n) ∨
        (r.exited = true ∧ m + 1 ≤ n ∧
          (tail = [Event.imapSelect "INBOX" false] ∨
           tail = [Event.imapSelect "INBOX" false,
             Event.imapSend "UID SEARCH" (searchField smtpconf start)]))))
  · intro u set; exact ⟨0, [], by simp [pollEvents, completeAttempts], Or.inl ⟨rfl, le_refl _⟩⟩
  · intro n u set _
    exact ⟨0, [], by simp [pollEvents, completeAttempts], Or.inl ⟨rfl, Nat.zero_le _⟩⟩
  · intro n set e _
    exact ⟨0, [Event.imapSelect "INBOX" false],
      by simp [pollEvents, completeAttempts, Event.isSelect, Event.isSearch, Event.isSleep],
      Or.inr ⟨rfl, by omega, Or.inl rfl⟩⟩
  · intro n set e _ _
    exact ⟨0, [Event.imapSelect "INBOX" false,
        Event.imapSend "UID SEARCH" (searchField smtpconf start)],
      by simp [pollEvents, completeAttempts, Event.isSelect, Event.isSearch, Event.isSleep],
      Or.inr ⟨rfl, by omega, Or.inr rfl⟩⟩
  · intro n set data _ _ ih
    obtain ⟨m, tail, h1, h2⟩ := ih
    refine ⟨m + 1, tail, ?_, ?_⟩
    · simp only [pollEvents_append, pollEvents_rangeData, h1, List.append_nil]
      simp [pollEvents, completeAttempts, Event.isSelect, Event.isSearch, Event.isSleep]
    · rcases h2 with ⟨h2, h3⟩ | ⟨h2, h3, h4⟩
      · exact Or.inl ⟨h2, by omega⟩
      · exact Or.inr ⟨h2, by omega, h4⟩

/-- When the responses of an attempt are all empty, `uidslice` is empty after
the loop over `cmd.Data` and `set` is unchanged. -/
theorem rangeData_empty (imapconf : imapCfg) (data : List (List Nat)) (set : SeqSet)
    (h : ∀ b ∈ data, b = []) :
    (rangeData imapconf data [] set).2.1 = [] ∧ (rangeData imapconf data [] set).2.2 = set := by
  constructor
  · rw [rangeData_uidslice]
    have := List.getLastD_mem_cons data ([] : List Nat)
    simp only [List.mem_cons] at this
    rcases this with h1 | h1
    · exact h1
    · exact h _ h1
  · suffices ∀ u, (rangeData imapconf data u set).2.2 = set from this []
    induction data with
    | nil => intro u; rfl
    | cons rsp rest ih =>
      intro u
      have h1 : rsp = [] := h rsp (by simp)
      subst h1
      simp only [rangeData, addAll, List.foldl_nil]
      exact ih (fun b hb => h b (by simp [hb])) []

/-- When every attempt returns no identifier, the loop makes all the attempts
that are left and ends with an empty `uidslice`. -/
theorem pollLoop_all_empty (smtpconf : smtpCfg) (imapconf : imapCfg) (w : World) (start : Time)
    (h : ∀ k < 200, emptyAttempt w k) :
    ∀ n u set, n ≤ 200 → u = [] →
      (pollLoop smtpconf imapconf w start n u set).exited = false ∧
      (pollLoop smtpconf imapconf w start n u set).uidslice = [] ∧
      (pollLoop smtpconf imapconf w start n u set).set = set ∧
      pollEvents (pollLoop smtpconf imapconf w start n u set).trace =
        completeAttempts smtpconf start n := by
  apply pollLoop_induct smtpconf imapconf w start
    (fun n u set r => n ≤ 200 → u = [] →
      r.exited = false ∧ r.uidslice = [] ∧ r.set = set ∧
      pollEvents r.trace = completeAttempts smtpconf start n)
  · intro u set _ hu; simp [hu, pollEvents, completeAttempts]
  · intro n u set hne _ hu; exact absurd hu hne
  · intro n set e hsel hn _
    have := (h (200 - (n + 1)) (by omega)).1
    rw [hsel] at this; exact absurd this (by simp)
  · intro n set e _ hsea hn _
    obtain ⟨_, data, hd, _⟩ := h (200 - (n + 1)) (by omega)
    rw [hsea] at hd; exact absurd hd (by simp)
  · intro n set data _ hsea ih hn _
    obtain ⟨_, data', hd, hall⟩ := h (200 - (n + 1)) (by omega)
    rw [hsea] at hd
    cases hd
    obtain ⟨e1, e2⟩ := rangeData_empty imapconf data set hall
    obtain ⟨i1, i2, i3, i4⟩ := ih (by omega) e1
    refine ⟨i1, i2, by rw [i3, e2], ?_⟩
    simp only [pollEvents_append, pollEvents_rangeData, i4, List.append_nil]
    simp [pollEvents, completeAttempts, Event.isSelect, Event.isSearch, Event.isSleep]

/-- When the attempts before attempt `j` complete with an empty last response
and the last response of attempt `j` is not empty, the loop stops after attempt
`j`, with the sleep that follows it. -/
theorem pollLoop_found (smtpconf : smtpCfg) (imapconf : imapCfg) (w : World) (start : Time)
    (j : Nat) (data : List (List Nat)) (hj : j < 200)
    (hbefore : ∀ k < j, missAttempt w k)
    (hsel : w.imapSelect j = none) (hsea : w.imapSearch j = Except.ok data)
    (hlast : data.getLastD [] ≠ []) :
    ∀ n u set, n ≤ 200 → 200 - n ≤ j → u = [] →
      (pollLoop smtpconf imapconf w start n u set).exited = false ∧
      (pollLoop smtpconf imapconf w start n u set).uidslice ≠ [] ∧
      pollEvents (pollLoop smtpconf imapconf w start n u set).trace =
        completeAttempts smtpconf start (j + 1 - (200 - n)) := by
  apply pollLoop_induct smtpconf imapconf w start
    (fun n u _ r => n ≤ 200 → 200 - n ≤ j → u = [] →
      r.exited = false ∧ r.uidslice ≠ [] ∧
      pollEvents r.trace = completeAttempts smtpconf start (j + 1 - (200 - n)))
  · intro u set _ h2 _; omega
  · intro n u set hne _ _ hu; exact absurd hu hne
  · intro n set e hs hn h2 _
    rcases Nat.lt_or_ge (200 - (n + 1)) j with hlt | hge
    · have := (hbefore _ hlt).1
      rw [hs] at this; exact absurd this (by simp)
    · have : 200 - (n + 1) = j := by omega
      rw [this, hsel] at hs; exact absurd hs (by simp)
  · intro n set e _ hs hn h2 _
    rcases Nat.lt_or_ge (200 - (n + 1)) j with hlt | hge
    · obtain ⟨_, d, hd, _⟩ := hbefore _ hlt
      rw [hs] at hd; exact absurd hd (by simp)
    · have : 200 - (n + 1) = j := by omega
      rw [this, hsea] at hs; exact absurd hs (by simp)
  · intro n set d _ hs ih hn h2 _
    rcases Nat.lt_or_ge (200 - (n + 1)) j with hlt | hge
    · obtain ⟨_, d', hd, hall⟩ := hbefore _ hlt
      rw [hs] at hd
      cases hd
      have e1 : (rangeData imapconf d [] set).2.1 = [] := by
        rw [rangeData_uidslice]; exact hall
      obtain ⟨i1, i2, i3⟩ := ih (by omega) (by omega) e1
      refine ⟨i1, i2, ?_⟩
      simp only [pollEvents_append, pollEvents_rangeData, i3, List.append_nil]
      have : j + 1 - (200 - (n + 1)) = (j + 1 - (200 - n)) + 1 := by omega
      rw [this]
      simp [pollEvents, completeAttempts, Event.isSelect, Event.isSearch, Event.isSleep]
    · have hw : 200 - (n + 1) = j := by omega
      rw [hw, hsea] at hs
      cases hs
      have hne : (rangeData imapconf data [] set).2.1 ≠ [] := by
        rw [rangeData_uidslice]; exact hlast
      rw [pollLoop_of_ne_nil smtpconf imapconf w start n _ _ hne]
      refine ⟨rfl, hne, ?_⟩
      simp only [pollEvents_append, pollEvents_rangeData, List.append_nil]
      have : j + 1 - (200 - (n + 1)) = 0 + 1 := by omega
      rw [this]
      simp [pollEvents, completeAttempts, Event.isSelect, Event.isSearch, Event.isSleep]

/-- A loop entered with an empty `uidslice` and left without `os.Exit` with an
empty `uidslice` has made every attempt the bound allows. -/
theorem pollLoop_exhausted (smtpconf : smtpCfg) (imapconf : imapCfg) (w : World)
    (start : Time) :
    ∀ n u set, u = [] → (pollLoop smtpconf imapconf w start n u set).exited = false →
      (pollLoop smtpconf imapconf w start n u set).uidslice = [] →
      pollEvents (pollLoop smtpconf imapconf w start n u set).trace =
        completeAttempts smtpconf start n := by
  apply pollLoop_induct smtpconf imapconf w start
    (fun n u _ r => u = [] → r.exited = false → r.uidslice = [] →
      pollEvents r.trace = completeAttempts smtpconf start n)
  · intro u set _ _ _; rfl
  · intro n u set hne hu _ _; exact absurd hu hne
  · intro n set e _ _ hex _; exact absurd hex (by simp)
  · intro n set e _ _ _ hex _; exact absurd hex (by simp)
  · intro n set data _ _ ih _ hex hu
    by_cases hd : (rangeData imapconf data [] set).2.1 = []
    · have i := ih hd hex hu
      simp only [pollEvents_append, pollEvents_rangeData, i, List.append_nil]
      simp [pollEvents, completeAttempts, Event.isSelect, Event.isSearch, Event.isSleep]
    · have hstop := pollLoop_of_ne_nil smtpconf imapconf w start n _
        (rangeData imapconf data [] set).2.2 hd
      simp only [hstop] at hu
      exact absurd hu hd

/-- A loop entered with an empty `uidslice` and left without `os.Exit` with a
non-empty `uidslice` has made at least one attempt, all of them complete. -/
theorem pollLoop_hit (smtpconf : smtpCfg) (imapconf : imapCfg) (w : World) (start : Time) :
    ∀ n u set, u = [] → (pollLoop smtpconf imapconf w start n u set).exited = false →
      (pollLoop smtpconf imapconf w start n u set).uidslice ≠ [] →
      ∃ m, 1 ≤ m ∧ m ≤ n ∧
        pollEvents (pollLoop smtpconf imapconf w start n u set).trace =
          completeAttempts smtpconf start m := by
  apply pollLoop_induct smtpconf imapconf w start
    (fun n u _ r => u = [] → r.exited = false → r.uidslice ≠ [] →
      ∃ m, 1 ≤ m ∧ m ≤ n ∧ pollEvents r.trace = completeAttempts smtpconf start m)
  · intro u set hu _ hne; exact absurd hu hne
  · intro n u set hne hu _ _; exact absurd hu hne
  · intro n set e _ _ hex _; exact absurd hex (by simp)
  · intro n set e _ _ _ hex _; exact absurd hex (by simp)
  · intro n set data _ _ ih _ hex hne
    by_cases hd : (rangeData imapconf data [] set).2.1 = []
    · obtain ⟨m, m1, m2, i⟩ := ih hd hex hne
      refine ⟨m + 1, by omega, by omega, ?_⟩
      simp only [pollEvents_append, pollEvents_rangeData, i, List.append_nil]
      simp [pollEvents, completeAttempts, Event.isSelect, Event.isSearch, Event.isSleep]
    · have hstop := pollLoop_of_ne_nil smtpconf imapconf w start n _
        (rangeData imapconf data [] set).2.2 hd
      refine ⟨1, le_refl _, by omega, ?_⟩
      simp only [hstop, pollEvents_append, pollEvents_rangeData, List.append_nil]
      simp [pollEvents, completeAttempts, Event.isSelect, Event.isSearch, Event.isSleep]

/-! ## Lemmas on the whole run -/

/-- The three ways a run goes: a call before the poll loop fails; the poll loop
ends the process; or the loop is left, the elapsed time is printed and the
cleanup follows. -/
theorem main_shape (smtpconf : smtpCfg) (imapconf : imapCfg) (w : World) :
    main smtpconf imapconf w =
      if allOk (steps smtpconf imapconf w) then
        if (poll smtpconf imapconf w).exited then
          ⟨opening smtpconf imapconf w ++ (poll smtpconf imapconf w).trace, 1⟩
        else
          ⟨opening smtpconf imapconf w ++ (poll smtpconf imapconf w).trace ++
            [Event.stdout (report imapconf w.sinceEnd)] ++
            cleanup imapconf w (poll smtpconf imapconf w).set, 0⟩
      else
        ⟨issuedEv (steps smtpconf imapconf w) ++ failMsg (steps smtpconf imapconf w), 1⟩ := by
  rw [main_eq, runSteps_eq]
  unfold opening steps poll pollAndCleanup emit
  by_cases h : allOk (connectSteps smtpconf imapconf w ++ sessionSteps smtpconf w w.now) = true
  · rw [if_pos h, if_pos h, issuedEv_of_allOk _ h]
    cases hex : (pollLoop smtpconf imapconf w w.now 200 [] NewSeqSet).exited <;> simp [hex]
  · rw [if_neg h, if_neg h]

/-- A run ends with status 0 exactly when no call before the poll loop fails
and the poll loop is left without `os.Exit`. -/
theorem exitCode_eq_zero (smtpconf : smtpCfg) (imapconf : imapCfg) (w : World) :
    (main smtpconf imapconf w).exitCode = 0 ↔
      allOk (steps smtpconf imapconf w) = true ∧ (poll smtpconf imapconf w).exited = false := by
  rw [main_shape]
  by_cases h : allOk (steps smtpconf imapconf w) = true
  · cases hex : (poll smtpconf imapconf w).exited <;> simp [h, hex]
  · simp [h]

/-- The trace of a run that ends with status 0. -/
theorem trace_of_exit_zero (smtpconf : smtpCfg) (imapconf : imapCfg) (w : World)
    (h : (main smtpconf imapconf w).exitCode = 0) :
    (main smtpconf imapconf w).trace =
      opening smtpconf imapconf w ++ (poll smtpconf imapconf w).trace ++
        [Event.stdout (report imapconf w.sinceEnd)] ++
        cleanup imapconf w (poll smtpconf imapconf w).set := by
  obtain ⟨h1, h2⟩ := (exitCode_eq_zero smtpconf imapconf w).1 h
  rw [main_shape]
  simp [h1, h2]

theorem steps_no_quit (smtpconf : smtpCfg) (imapconf : imapCfg) (w : World) :
    Event.smtpQuit ∉ (steps smtpconf imapconf w).map Step.ev := by
  unfold steps connectSteps smtpConnectSteps imapDialEvent imapDialAnswer sessionSteps
  cases imapconf.imapTLS <;> cases smtpconf.SSLonConnect <;> cases smtpconf.sTARTLS <;>
    by_cases hu : smtpconf.username = "" <;> simp [hu]

/-- `Quit` is sent exactly when no call before it fails. -/
theorem quit_mem_iff (smtpconf : smtpCfg) (imapconf : imapCfg) (w : World) :
    Event.smtpQuit ∈ (main smtpconf imapconf w).trace ↔
      allOk (steps smtpconf imapconf w) = true := by
  rw [main_shape]
  by_cases h : allOk (steps smtpconf imapconf w) = true
  · cases hex : (poll smtpconf imapconf w).exited <;> simp [h, hex, opening]
  · simp only [h, if_false, List.mem_append, Bool.false_eq_true, iff_false, not_or]
    constructor
    · intro hq
      exact steps_no_quit smtpconf imapconf w (issuedEv_sub _ _ hq)
    · intro hq
      obtain ⟨t, ht⟩ := failMsg_stderr _ _ hq
      cases ht

/-- The calls before the poll loop are neither poll commands, nor sleeps, nor
cleanup commands, nor messages of an error. -/
theorem opening_events (smtpconf : smtpCfg) (imapconf : imapCfg) (w : World) :
    ∀ e ∈ opening smtpconf imapconf w,
      e.isSelect = false ∧ e.isSearch = false ∧ e.isSleep = false ∧ e.isCleanup = false ∧
      e.isStderr = false := by
  intro e he
  simp only [opening, List.mem_append, List.mem_cons] at he
  rcases he with he | rfl | he
  · have := steps_events smtpconf imapconf w w.now e he
    exact ⟨this.1, this.2.1, this.2.2.1, this.2.2.2.1, this.2.2.2.2.2⟩
  · simp [Event.isSelect, Event.isSearch, Event.isSleep, Event.isCleanup, Event.isStderr]
  · unfold debugSent at he
    split at he
    · simp only [List.mem_singleton] at he
      subst he
      simp [Event.isSelect, Event.isSearch, Event.isSleep, Event.isCleanup, Event.isStderr]
    · simp at he

/-- The calls of the cleanup are neither poll commands, nor sleeps, nor
prints. -/
theorem cleanup_events (imapconf : imapCfg) (w : World) (set : SeqSet) :
    ∀ e ∈ cleanup imapconf w set,
      e.isSelect = false ∧ e.isSearch = false ∧ e.isSleep = false ∧ e.isStdout = false := by
  intro e he
  unfold cleanup at he
  cases h1 : w.imapUIDStore <;> cases h2 : w.imapExpunge <;> simp [h1, h2] at he <;>
    rcases he with rfl | rfl | he <;> (try rcases he with rfl | rfl) <;>
    (try rcases he with rfl | rfl | rfl) <;>
    simp [Event.isSelect, Event.isSearch, Event.isSleep, Event.isStdout]

theorem pollEvents_opening (smtpconf : smtpCfg) (imapconf : imapCfg) (w : World) :
    pollEvents (opening smtpconf imapconf w) = [] :=
  pollEvents_eq_nil _ fun e he =>
    ⟨(opening_events smtpconf imapconf w e he).1, (opening_events smtpconf imapconf w e he).2.1,
      (opening_events smtpconf imapconf w e he).2.2.1⟩

theorem pollEvents_cleanup (imapconf : imapCfg) (w : World) (set : SeqSet) :
    pollEvents (cleanup imapconf w set) = [] :=
  pollEvents_eq_nil _ fun e he =>
    ⟨(cleanup_events imapconf w set e he).1, (cleanup_events imapconf w set e he).2.1,
      (cleanup_events imapconf w set e he).2.2.1⟩

/-- The poll commands and sleeps of a run are those of its poll loop. -/
theorem pollEvents_main (smtpconf : smtpCfg) (imapconf : imapCfg) (w : World) :
    pollEvents (main smtpconf imapconf w).trace =
      if allOk (steps smtpconf imapconf w) then pollEvents (poll smtpconf imapconf w).trace
      else [] := by
  rw [main_shape]
  by_cases h : allOk (steps smtpconf imapconf w) = true
  · have hs : ∀ t, pollEvents [Event.stdout t] = [] := fun _ => rfl
    cases hex : (poll smtpconf imapconf w).exited <;>
      simp only [h, hex, if_true, Bool.false_eq_true, if_false, pollEvents_append,
        pollEvents_opening, pollEvents_cleanup, hs, List.nil_append, List.append_nil]
  · simp only [h, if_false, Bool.false_eq_true]
    apply pollEvents_eq_nil
    intro e he
    simp only [List.mem_append] at he
    rcases he with he | he
    · have := steps_events smtpconf imapconf w w.now e (issuedEv_sub _ e he)
      exact ⟨this.1, this.2.1, this.2.2.1⟩
    · obtain ⟨t, rfl⟩ := failMsg_stderr _ e he
      simp [Event.isSelect, Event.isSearch, Event.isSleep]

theorem stdoutOf_append (a b : List Event) : stdoutOf (a ++ b) = stdoutOf a ++ stdoutOf b := by
  induction a with
  | nil => simp [stdoutOf]
  | cons e rest ih => cases e <;> simp [stdoutOf, ih]

theorem stdoutOf_eq_nil (t : List Event) (h : ∀ e ∈ t, e.isStdout = false) : stdoutOf t = [] := by
  induction t with
  | nil => rfl
  | cons e rest ih =>
    have h1 := h e (by simp)
    have h2 := ih (fun x hx => h x (by simp [hx]))
    cases e <;> simp_all [stdoutOf, Event.isStdout]

/-- A run whose submission has completed and whose poll loop is left without
`os.Exit`: the trace splits at the print of the elapsed time, with the whole
poll loop before it and only the cleanup after it. -/
theorem split_at_report (smtpconf : smtpCfg) (imapconf : imapCfg) (w : World) (m : Nat)
    (hq : Event.smtpQuit ∈ (main smtpconf imapconf w).trace)
    (hex : (poll smtpconf imapconf w).exited = false)
    (hm : pollEvents (poll smtpconf imapconf w).trace = completeAttempts smtpconf w.now m) :
    (main smtpconf imapconf w).exitCode = 0 ∧
    ∃ pre post, (main smtpconf imapconf w).trace =
        pre ++ Event.stdout (report imapconf w.sinceEnd) :: post ∧
      pollEvents pre = completeAttempts smtpconf w.now m ∧ slept pre = m ∧
      pollEvents post = [] := by
  have hok := (quit_mem_iff smtpconf imapconf w).1 hq
  have h0 : (main smtpconf imapconf w).exitCode = 0 :=
    (exitCode_eq_zero smtpconf imapconf w).2 ⟨hok, hex⟩
  refine ⟨h0, opening smtpconf imapconf w ++ (poll smtpconf imapconf w).trace,
    cleanup imapconf w (poll smtpconf imapconf w).set, ?_, ?_, ?_, pollEvents_cleanup _ _ _⟩
  · rw [trace_of_exit_zero smtpconf imapconf w h0]; simp
  · rw [pollEvents_append, pollEvents_opening, hm]; rfl
  · rw [← slept_pollEvents, pollEvents_append, pollEvents_opening, hm]
    exact slept_completeAttempts smtpconf w.now m

theorem stdoutOf_cleanup (imapconf : imapCfg) (w : World) (set : SeqSet) :
    stdoutOf (cleanup imapconf w set) = [] :=
  stdoutOf_eq_nil _ fun e he => (cleanup_events imapconf w set e he).2.2.2

/-- Without the debug mode nothing is printed before the poll loop. -/
theorem stdoutOf_opening (smtpconf : smtpCfg) (imapconf : imapCfg) (w : World)
    (hd : imapconf.debug = false) : stdoutOf (opening smtpconf imapconf w) = [] := by
  apply stdoutOf_eq_nil
  intro e he
  simp only [opening, debugSent, hd, List.mem_append, List.mem_cons] at he
  rcases he with he | rfl | he
  · exact (steps_events smtpconf imapconf w w.now e he).2.2.2.2.1
  · rfl
  · simp at he

/-- Without the debug mode the poll loop prints nothing. -/
theorem stdoutOf_pollLoop (smtpconf : smtpCfg) (imapconf : imapCfg) (w : World) (start : Time)
    (hd : imapconf.debug = false) (n : Nat) (u : List Nat) (set : SeqSet) :
    stdoutOf (pollLoop smtpconf imapconf w start n u set).trace = [] := by
  apply stdoutOf_eq_nil
  intro e he
  rcases pollLoop_events smtpconf imapconf w start n u set e he with
    rfl | rfl | rfl | ⟨_, h⟩ | ⟨⟨t, rfl⟩, _⟩
  · rfl
  · rfl
  · rfl
  · rw [hd] at h; exact absurd h (by simp)
  · rfl

/-- The standard output of a run that ends with status 0 ends with the line
of the elapsed time, and without the debug mode is that line alone. -/
theorem stdoutOf_of_exit_zero (smtpconf : smtpCfg) (imapconf : imapCfg) (w : World)
    (h : (main smtpconf imapconf w).exitCode = 0) :
    (stdoutOf (main smtpconf imapconf w).trace).getLast? = some (report imapconf w.sinceEnd) ∧
    (imapconf.debug = false →
      stdoutOf (main smtpconf imapconf w).trace = [report imapconf w.sinceEnd]) := by
  rw [trace_of_exit_zero smtpconf imapconf w h]
  simp only [stdoutOf_append, stdoutOf_cleanup, List.append_nil]
  constructor
  · simp [stdoutOf]
  · intro hd
    rw [stdoutOf_opening smtpconf imapconf w hd]
    unfold poll
    rw [stdoutOf_pollLoop smtpconf imapconf w w.now hd]
    rfl

/-! ## Lemmas on the cleanup and on the set of identifiers -/

/-- The poll loop reads the world only through the answers to `SELECT` and to
the search. -/
theorem pollLoop_congr (smtpconf : smtpCfg) (imapconf : imapCfg) (w w' : World)
    (start : Time) (h1 : w'.imapSelect = w.imapSelect) (h2 : w'.imapSearch = w.imapSearch)
    (n : Nat) (u : List Nat) (set : SeqSet) :
    pollLoop smtpconf imapconf w' start n u set = pollLoop smtpconf imapconf w start n u set := by
  induction n generalizing u set with
  | zero => rfl
  | succ n ih => simp only [pollLoop, ih, h1, h2]

/-- The poll loop does not read the answers to the cleanup commands. -/
theorem pollLoop_cleanup_answers (smtpconf : smtpCfg) (imapconf : imapCfg) (w : World)
    (start : Time) (st ex : Option String) (n : Nat) (u : List Nat) (set : SeqSet) :
    pollLoop smtpconf imapconf { w with imapUIDStore := st, imapExpunge := ex } start n u set =
      pollLoop smtpconf imapconf w start n u set :=
  pollLoop_congr smtpconf imapconf w { w with imapUIDStore := st, imapExpunge := ex } start
    rfl rfl n u set

/-- The calls before the poll loop, and the poll loop, are no cleanup
commands. -/
theorem before_report_events (smtpconf : smtpCfg) (imapconf : imapCfg) (w : World) :
    ∀ e ∈ opening smtpconf imapconf w ++ (poll smtpconf imapconf w).trace,
      e.isCleanup = false := by
  intro e he
  simp only [List.mem_append] at he
  rcases he with he | he
  · exact (opening_events smtpconf imapconf w e he).2.2.2.1
  · rcases pollLoop_events smtpconf imapconf w w.now 200 [] NewSeqSet e he with
      rfl | rfl | rfl | ⟨⟨t, rfl⟩, _⟩ | ⟨⟨t, rfl⟩, _⟩ <;> rfl

theorem mem_AddNum (set : SeqSet) (n x : Nat) : x ∈ set.AddNum n ↔ x ∈ set ∨ x = n := by
  unfold SeqSet.AddNum
  split
  · constructor
    · exact Or.inl
    · rintro (h | rfl)
      · exact h
      · assumption
  · simp

theorem mem_addAll (set : SeqSet) (u : List Nat) (x : Nat) :
    x ∈ addAll set u ↔ x ∈ set ∨ x ∈ u := by
  unfold addAll
  induction u generalizing set with
  | nil => simp
  | cons a u ih =>
    simp only [List.foldl_cons, ih, mem_AddNum, List.mem_cons]
    tauto

/-- After the loop over `cmd.Data`, `set` holds what it held and every
identifier of every response. -/
theorem mem_rangeData (imapconf : imapCfg) (data : List (List Nat)) (u : List Nat)
    (set : SeqSet) (x : Nat) :
    x ∈ (rangeData imapconf data u set).2.2 ↔ x ∈ set ∨ ∃ b ∈ data, x ∈ b := by
  induction data generalizing u set with
  | nil => simp [rangeData]
  | cons rsp rest ih =>
    simp only [rangeData, ih, mem_addAll, List.mem_cons, exists_eq_or_imp]
    tauto

theorem countP_search_eq (t : List Event) :
    t.countP Event.isSearch = (pollEvents t).countP Event.isSearch := by
  induction t with
  | nil => rfl
  | cons e rest ih =>
    cases e <;>
      simp_all [pollEvents, List.countP_cons, List.filter_cons, Event.isSelect, Event.isSearch,
        Event.isSleep]

/-- When the poll loop is left without `os.Exit`, `set` holds what it held
before and the identifiers of every response of every attempt made. -/
theorem pollLoop_set (smtpconf : smtpCfg) (imapconf : imapCfg) (w : World) (start : Time) :
    ∀ n u set, n ≤ 200 → (pollLoop smtpconf imapconf w start n u set).exited = false →
      ∀ x, x ∈ (pollLoop smtpconf imapconf w start n u set).set ↔
        x ∈ set ∨ ∃ k, 200 - n ≤ k ∧
          k < 200 - n + (pollLoop smtpconf imapconf w start n u set).trace.countP Event.isSearch ∧
          ∃ data, w.imapSearch k = Except.ok data ∧ ∃ b ∈ data, x ∈ b := by
  apply pollLoop_induct smtpconf imapconf w start
    (fun n _ set r => n ≤ 200 → r.exited = false →
      ∀ x, x ∈ r.set ↔
        x ∈ set ∨ ∃ k, 200 - n ≤ k ∧ k < 200 - n + r.trace.countP Event.isSearch ∧
          ∃ data, w.imapSearch k = Except.ok data ∧ ∃ b ∈ data, x ∈ b)
  · intro u set _ _ x
    simp only [List.countP_nil, Nat.add_zero]
    constructor
    · exact Or.inl
    · rintro (h | ⟨k, h1, h2, _⟩)
      · exact h
      · omega
  · intro n u set _ _ _ x
    simp only [List.countP_nil, Nat.add_zero]
    constructor
    · exact Or.inl
    · rintro (h | ⟨k, h1, h2, _⟩)
      · exact h
      · omega
  · intro n set e _ _ hex; exact absurd hex (by simp)
  · intro n set e _ _ _ hex; exact absurd hex (by simp)
  · intro n set data _ hsea ih hn hex x
    have hc : ([Event.imapSelect "INBOX" false,
          Event.imapSend "UID SEARCH" (searchField smtpconf start)] ++
          (rangeData imapconf data [] set).1 ++ [Event.sleep 1] ++
          (pollLoop smtpconf imapconf w start n (rangeData imapconf data [] set).2.1
            (rangeData imapconf data [] set).2.2).trace).countP Event.isSearch =
        1 + (pollLoop smtpconf imapconf w start n (rangeData imapconf data [] set).2.1
            (rangeData imapconf data [] set).2.2).trace.countP Event.isSearch := by
      have c2 := countP_rangeData imapconf data [] set Event.isSearch (fun _ => rfl)
      simp only [List.countP_append, List.countP_cons, List.countP_nil, c2, Event.isSearch]
      simp
    simp only [hc]
    rw [ih (by omega) hex x, mem_rangeData]
    constructor
    · rintro ((h | ⟨b, hb, hx⟩) | ⟨k, h1, h2, h3⟩)
      · exact Or.inl h
      · exact Or.inr ⟨200 - (n + 1), le_refl _, by omega, data, hsea, b, hb, hx⟩
      · exact Or.inr ⟨k, by omega, by omega, h3⟩
    · rintro (h | ⟨k, h1, h2, d, hd, b, hb, hx⟩)
      · exact Or.inl (Or.inl h)
      · rcases Nat.lt_or_ge k (200 - n) with hlt | hge
        · have hk : k = 200 - (n + 1) := by omega
          subst hk
          rw [hsea] at hd
          cases hd
          exact Or.inl (Or.inr ⟨b, hb, hx⟩)
        · exact Or.inr ⟨k, hge, by omega, d, hd, b, hb, hx⟩

/-- The searches of a run that ends with status 0 are those of its poll
loop. -/
theorem countP_search_main (smtpconf : smtpCfg) (imapconf : imapCfg) (w : World)
    (h : (main smtpconf imapconf w).exitCode = 0) :
    (main smtpconf imapconf w).trace.countP Event.isSearch =
      (poll smtpconf imapconf w).trace.countP Event.isSearch := by
  rw [countP_search_eq, pollEvents_main, (exitCode_eq_zero smtpconf imapconf w).1 h |>.1,
    if_pos rfl, ← countP_search_eq]

/-! ## Lemmas for the claims -/

/-- When the submission fails, some call before the poll loop is answered with
an error. -/
theorem not_allOk_of_smtpFails (smtpconf : smtpCfg) (imapconf : imapCfg) (w : World)
    (start : Time) (h : smtpFails smtpconf w) :
    allOk (connectSteps smtpconf imapconf w ++ sessionSteps smtpconf w start) = false := by
  unfold smtpFails at h
  unfold connectSteps smtpConnectSteps imapDialEvent imapDialAnswer sessionSteps allOk
  cases h2 : smtpconf.SSLonConnect <;> cases h3 : smtpconf.sTARTLS <;>
    by_cases hu : smtpconf.username = "" <;>
    simp [h2, h3, hu, Option.isSome_iff_ne_none] at h ⊢ <;>
    intros <;> simp_all

/-- The cleanup commands are the same whatever the answers to them; the
answers only add messages to the error stream. -/
theorem cleanup_filter (imapconf : imapCfg) (w : World) (set : SeqSet) :
    (cleanup imapconf w set).filter (fun e => !e.isStderr) =
      [Event.imapUIDStore set "+FLAGS" "(\\Deleted)", Event.imapExpunge, Event.imapLogout] := by
  unfold cleanup
  cases w.imapUIDStore <;> cases w.imapExpunge <;> simp [Event.isStderr]

/-- Where a call of a run comes from: a step before the poll loop, `Quit`, a
print, the poll loop, the cleanup, or the message of an error. -/
theorem mem_trace_cases (smtpconf : smtpCfg) (imapconf : imapCfg) (w : World) :
    ∀ e ∈ (main smtpconf imapconf w).trace,
      e ∈ (steps smtpconf imapconf w).map Step.ev ∨ e = Event.smtpQuit ∨
      (∃ t, e = Event.stdout t) ∨ (∃ t, e = Event.stderr t) ∨
      e ∈ (poll smtpconf imapconf w).trace ∨
      e ∈ cleanup imapconf w (poll smtpconf imapconf w).set := by
  intro e he
  rw [main_shape] at he
  have hdebug : ∀ x ∈ debugSent smtpconf imapconf w, ∃ t, x = Event.stdout t := by
    intro x hx
    unfold debugSent at hx
    split at hx
    · simp only [List.mem_singleton] at hx; exact ⟨_, hx⟩
    · simp at hx
  by_cases h : allOk (steps smtpconf imapconf w) = true
  · cases hex : (poll smtpconf imapconf w).exited
    · simp only [h, hex, if_true, Bool.false_eq_true, if_false, opening, List.mem_append,
        List.mem_cons, List.not_mem_nil, or_false] at he
      rcases he with (((he | rfl | he) | he) | rfl) | he
      · exact Or.inl he
      · exact Or.inr (Or.inl rfl)
      · exact Or.inr (Or.inr (Or.inl (hdebug e he)))
      · exact Or.inr (Or.inr (Or.inr (Or.inr (Or.inl he))))
      · exact Or.inr (Or.inr (Or.inl ⟨_, rfl⟩))
      · exact Or.inr (Or.inr (Or.inr (Or.inr (Or.inr he))))
    · simp only [h, hex, if_true, opening, List.mem_append, List.mem_cons] at he
      rcases he with (he | rfl | he) | he
      · exact Or.inl he
      · exact Or.inr (Or.inl rfl)
      · exact Or.inr (Or.inr (Or.inl (hdebug e he)))
      · exact Or.inr (Or.inr (Or.inr (Or.inr (Or.inl he))))
  · simp only [h, if_false, Bool.false_eq_true, List.mem_append] at he
    rcases he with he | he
    · exact Or.inl (issuedEv_sub _ e he)
    · exact Or.inr (Or.inr (Or.inr (Or.inl (failMsg_stderr _ e he))))

/-- The only message written to the SMTP server is `smtpMsg`. -/
theorem steps_write (smtpconf : smtpCfg) (imapconf : imapCfg) (w : World) (msg : String)
    (h : Event.smtpWrite msg ∈ (steps smtpconf imapconf w).map Step.ev) :
    msg = smtpMsg smtpconf w.now := by
  unfold steps connectSteps smtpConnectSteps imapDialEvent imapDialAnswer sessionSteps at h
  cases h1 : imapconf.imapTLS <;> cases h2 : smtpconf.SSLonConnect <;>
    cases h3 : smtpconf.sTARTLS <;> by_cases hu : smtpconf.username = "" <;>
    simpa [h1, h2, h3, hu] using h

theorem lowDigits_four (x : Nat) :
    lowDigits 4 x = [digitChar (x / 1000), digitChar (x / 100), digitChar (x / 10), digitChar x] := by
  simp [lowDigits, Nat.div_div_eq_div_mul]

theorem lowDigits_two (x : Nat) : lowDigits 2 x = [digitChar (x / 10), digitChar x] := by
  simp [lowDigits]

/-- The format of a civil time: fourteen decimal digits, the year on four and
the month, day, hour, minute and second on two each. -/
theorem format_valid (t : Time) (hv : t.valid) :
    t.Format20060102150405 = String.mk
      [digitChar (t.year / 1000), digitChar (t.year / 100), digitChar (t.year / 10),
        digitChar t.year, digitChar (t.month / 10), digitChar t.month,
        digitChar (t.day / 10), digitChar t.day, digitChar (t.hour / 10), digitChar t.hour,
        digitChar (t.minute / 10), digitChar t.minute,
        digitChar (t.second / 10), digitChar t.second] := by
  obtain ⟨h1, _, h2, _, h3, h4, h5, h6⟩ := hv
  have e1 : appendInt t.year 4 = String.mk (lowDigits 4 t.year) := by
    unfold appendInt; rw [if_pos (by omega)]
  have e2 : appendInt t.month 2 = String.mk (lowDigits 2 t.month) := by
    unfold appendInt; rw [if_pos (by omega)]
  have e3 : appendInt t.day 2 = String.mk (lowDigits 2 t.day) := by
    unfold appendInt; rw [if_pos (by omega)]
  have e4 : appendInt t.hour 2 = String.mk (lowDigits 2 t.hour) := by
    unfold appendInt; rw [if_pos (by omega)]
  have e5 : appendInt t.minute 2 = String.mk (lowDigits 2 t.minute) := by
    unfold appendInt; rw [if_pos (by omega)]
  have e6 : appendInt t.second 2 = String.mk (lowDigits 2 t.second) := by
    unfold appendInt; rw [if_pos (by omega)]
  unfold Time.Format20060102150405
  rw [e1, e2, e3, e4, e5, e6, lowDigits_four, lowDigits_two, lowDigits_two, lowDigits_two,
    lowDigits_two, lowDigits_two]
  rfl

/-! ### The SMTP session -/

theorem throughFirstFailure_steps (l : List Step) (q : Event) :
    throughFirstFailure (l.map (fun st => (st.ev, st.err)) ++ [(q, none)]) =
      if allOk l then l.map Step.ev ++ [q] else issuedEv l := by
  induction l with
  | nil => simp [throughFirstFailure, allOk]
  | cons st rest ih =>
    obtain ⟨ev, err, msg⟩ := st
    cases err with
    | some e => simp [throughFirstFailure, allOk, issuedEv]
    | none =>
      simp only [List.map_cons, List.cons_append, throughFirstFailure]
      by_cases h : allOk rest = true
      · have h' : allOk (⟨ev, none, msg⟩ :: rest) = true := by simpa [allOk] using h
        simp [h, h', ih]
      · have h' : ¬ allOk (⟨ev, none, msg⟩ :: rest) = true := by simpa [allOk] using h
        simp [h, h', ih, issuedEv]

theorem throughFirstFailure_initial (l : List (Event × Option String)) :
    throughFirstFailure l <+: l.map Prod.fst := by
  induction l with
  | nil => simp [throughFirstFailure]
  | cons a rest ih =>
    obtain ⟨c, err⟩ := a
    simp only [throughFirstFailure, List.map_cons]
    split
    · exact ⟨rest.map Prod.fst, rfl⟩
    · obtain ⟨t, ht⟩ := ih
      exact ⟨t, by simp [ht]⟩

/-- The canonical sequence is the sequence of the session steps of `main`,
followed by `Quit`. -/
theorem canonical_eq (smtpconf : smtpCfg) (w : World) (start : Time) :
    canonical smtpconf w start =
      (sessionSteps smtpconf w start).map (fun st => (st.ev, st.err)) ++
        [(Event.smtpQuit, none)] := by
  unfold canonical sessionSteps chooseAuth
  cases smtpconf.sTARTLS <;> by_cases hu : smtpconf.username = "" <;> simp [hu]

theorem filter_cmd_eq_nil (t : List Event) (h : ∀ e ∈ t, e.isSmtpCommand = false) :
    t.filter Event.isSmtpCommand = [] := by
  simp only [List.filter_eq_nil_iff]
  intro e he
  simp [h e he]

theorem filter_cmd_eq_self (t : List Event) (h : ∀ e ∈ t, e.isSmtpCommand = true) :
    t.filter Event.isSmtpCommand = t := by
  simp only [List.filter_eq_self]
  exact h

theorem connectSteps_events (smtpconf : smtpCfg) (imapconf : imapCfg) (w : World) :
    ∀ e ∈ (connectSteps smtpconf imapconf w).map Step.ev, e.isSmtpCommand = false := by
  intro e he
  unfold connectSteps smtpConnectSteps imapDialEvent imapDialAnswer at he
  cases h1 : imapconf.imapTLS <;> cases h2 : smtpconf.SSLonConnect <;>
    simp [h1, h2] at he <;>
    rcases he with rfl | rfl | rfl | he <;> (try rcases he with rfl | rfl) <;> rfl

theorem sessionSteps_events (smtpconf : smtpCfg) (w : World) (start : Time) :
    ∀ e ∈ (sessionSteps smtpconf w start).map Step.ev, e.isSmtpCommand = true := by
  intro e he
  unfold sessionSteps at he
  cases h3 : smtpconf.sTARTLS <;> by_cases hu : smtpconf.username = "" <;>
    simp [h3, hu] at he <;>
    rcases he with rfl | rfl | rfl | rfl | rfl | rfl | he <;>
    (try rcases he with rfl | rfl) <;> rfl

/-- The SMTP commands of a run: none when the connection phase fails, and
otherwise the canonical sequence up to and including its first failure. -/
theorem cmds_main (smtpconf : smtpCfg) (imapconf : imapCfg) (w : World) :
    (main smtpconf imapconf w).trace.filter Event.isSmtpCommand =
      if allOk (connectSteps smtpconf imapconf w) then
        throughFirstFailure (canonical smtpconf w w.now)
      else [] := by
  have hc := connectSteps_events smtpconf imapconf w
  have hs := sessionSteps_events smtpconf w w.now
  rw [canonical_eq, throughFirstFailure_steps, main_shape]
  unfold opening steps
  rw [allOk_append, issuedEv_append]
  by_cases h1 : allOk (connectSteps smtpconf imapconf w) = true
  · by_cases h2 : allOk (sessionSteps smtpconf w w.now) = true
    · have hrest : ∀ t : List Event, (∀ e ∈ t, e.isSmtpCommand = false) →
          t.filter Event.isSmtpCommand = [] := filter_cmd_eq_nil
      have hd : (debugSent smtpconf imapconf w).filter Event.isSmtpCommand = [] := by
        unfold debugSent; split <;> rfl
      have hp : (poll smtpconf imapconf w).trace.filter Event.isSmtpCommand = [] := by
        apply filter_cmd_eq_nil
        intro e he
        rcases pollLoop_events smtpconf imapconf w w.now 200 [] NewSeqSet e he with
          rfl | rfl | rfl | ⟨⟨t, rfl⟩, _⟩ | ⟨⟨t, rfl⟩, _⟩ <;> rfl
      have hcl : (cleanup imapconf w (poll smtpconf imapconf w).set).filter
          Event.isSmtpCommand = [] := by
        unfold cleanup
        cases w.imapUIDStore <;> cases w.imapExpunge <;> rfl
      cases hex : (poll smtpconf imapconf w).exited <;>
        simp only [h1, h2, hex, Bool.and_self, if_true, Bool.false_eq_true, if_false,
          List.map_append, List.filter_append, List.filter_cons, filter_cmd_eq_nil _ hc,
          filter_cmd_eq_self _ hs, hd, hp, hcl, List.nil_append, List.append_nil,
          Event.isSmtpCommand, List.filter_nil]
    · simp only [h1, h2, Bool.and_false, if_true, Bool.false_eq_true, if_false,
        List.filter_append, filter_cmd_eq_nil _ hc, List.nil_append]
      rw [filter_cmd_eq_self _ (fun e he => hs e (issuedEv_sub _ e he))]
      apply List.append_right_eq_self.2
      apply filter_cmd_eq_nil
      intro e he
      obtain ⟨t, rfl⟩ := failMsg_stderr _ e he
      rfl
  · simp only [h1, Bool.false_and, if_false, Bool.false_eq_true, List.filter_append]
    rw [filter_cmd_eq_nil _ (fun e he => hc e (issuedEv_sub _ e he))]
    apply filter_cmd_eq_nil
    intro e he
    obtain ⟨t, rfl⟩ := failMsg_stderr _ e he
    rfl

theorem hello_mem_throughFirstFailure (smtpconf : smtpCfg) (w : World) (start : Time) :
    Event.smtpHello smtpconf.helloName ∈ throughFirstFailure (canonical smtpconf w start) := by
  unfold canonical
  simp only [List.singleton_append, List.cons_append, throughFirstFailure]
  split <;> simp

/-- The answer to `Quit` is not read: it changes nothing in the run. -/
theorem main_quit_answer (smtpconf : smtpCfg) (imapconf : imapCfg) (w : World)
    (q : Option String) :
    main smtpconf imapconf { w with smtpQuit := q } = main smtpconf imapconf w := by
  have hsteps : steps smtpconf imapconf { w with smtpQuit := q } =
      steps smtpconf imapconf w := rfl
  have hopen : opening smtpconf imapconf { w with smtpQuit := q } =
      opening smtpconf imapconf w := rfl
  have hpoll : poll smtpconf imapconf { w with smtpQuit := q } = poll smtpconf imapconf w :=
    pollLoop_congr smtpconf imapconf w { w with smtpQuit := q } w.now rfl rfl 200 [] NewSeqSet
  have hclean : ∀ set, cleanup imapconf { w with smtpQuit := q } set = cleanup imapconf w set :=
    fun _ => rfl
  rw [main_shape, main_shape, hsteps, hopen, hpoll, hclean]

/-! ### The order of the IMAP login and the SMTP submission -/

/-- What follows the clock reading in a run: the SMTP submission, the poll
loop and the cleanup make no connection to the IMAP server and no login. -/
theorem after_login_events (smtpconf : smtpCfg) (imapconf : imapCfg) (w : World) :
    ∀ e ∈ (runSteps (smtpConnectSteps smtpconf w ++ sessionSteps smtpconf w w.now)
        (emit (Event.smtpQuit :: debugSent smtpconf imapconf w)
          (pollAndCleanup smtpconf imapconf w w.now [] NewSeqSet))).trace,
      e.isImapConnect = false := by
  intro e he
  have hsteps : ∀ x ∈ (smtpConnectSteps smtpconf w ++ sessionSteps smtpconf w w.now).map Step.ev,
      x.isImapConnect = false := by
    intro x hx
    unfold smtpConnectSteps sessionSteps at hx
    cases h2 : smtpconf.SSLonConnect <;> cases h3 : smtpconf.sTARTLS <;>
      by_cases hu : smtpconf.username = "" <;>
      simp [h2, h3, hu] at hx <;>
      rcases hx with rfl | rfl | rfl | rfl | rfl | rfl | rfl | hx <;>
      (try rcases hx with rfl | rfl | hx) <;> (try rcases hx with rfl | rfl) <;> rfl
  rw [runSteps_eq] at he
  split at he
  · simp only [emit, pollAndCleanup, List.mem_append, List.cons_append, List.mem_cons] at he
    rcases he with he | rfl | he | he
    · exact hsteps e (issuedEv_sub _ e he)
    · rfl
    · unfold debugSent at he
      split at he
      · simp only [List.mem_singleton] at he; subst he; rfl
      · simp at he
    · have hpoll : ∀ x ∈ (pollLoop smtpconf imapconf w w.now 200 [] NewSeqSet).trace,
          x.isImapConnect = false := by
        intro x hx
        rcases pollLoop_events smtpconf imapconf w w.now 200 [] NewSeqSet x hx with
          rfl | rfl | rfl | ⟨⟨t, rfl⟩, _⟩ | ⟨⟨t, rfl⟩, _⟩ <;> rfl
      split at he
      · exact hpoll e he
      · simp only [List.mem_append, List.mem_singleton] at he
        rcases he with (he | rfl) | he
        · exact hpoll e he
        · rfl
        · unfold cleanup at he
          cases h1 : w.imapUIDStore <;> cases h2 : w.imapExpunge <;> simp [h1, h2] at he <;>
            rcases he with rfl | rfl | he <;> (try rcases he with rfl | rfl) <;>
            (try rcases he with rfl | rfl | rfl) <;> rfl
  · simp only [List.mem_append] at he
    rcases he with he | he
    · exact hsteps e (issuedEv_sub _ e he)
    · obtain ⟨t, rfl⟩ := failMsg_stderr _ e he
      rfl

/-! ## The claims -/

set_option maxRecDepth 100000

/-- C1 at the failing input: the search of attempt 1 returns the identifier 7
in its first response and an empty second response.  After that attempt `set`
holds 7 but `uidslice`, overwritten by the last response, is empty; the loop
goes on and attempt 2 issues `SELECT` and `UID SEARCH` again. -/
theorem C1_failing_input :
    worldTwoResponses.imapSearch 0 = Except.ok [[7], []] ∧
    (rangeData imapEx [[7], []] [] NewSeqSet).2.1 = [] ∧
    (rangeData imapEx [[7], []] [] NewSeqSet).2.2 = [7] ∧
    pollEvents (main smtpEx imapEx worldTwoResponses).trace =
      [Event.imapSelect "INBOX" false,
       Event.imapSend "UID SEARCH" "SUBJECT \"20240307090501Delivery quality monitoring\"",
       Event.sleep 1,
       Event.imapSelect "INBOX" false,
       Event.imapSend "UID SEARCH" "SUBJECT \"20240307090501Delivery quality monitoring\"",
       Event.sleep 1] ∧
    (main smtpEx imapEx worldTwoResponses).trace.countP Event.isSelect = 2 :=
  ⟨rfl, by decide, by decide, by decide, by decide⟩


/-- C2: for every world the poll loop makes at most 200 attempts, each a
`SELECT INBOX` followed by a `UID SEARCH` (and a sleep of one second when the
attempt completes); only an attempt that ends the process is cut short.  When
the submission has completed and each of the 200 attempts returns no
identifier, the run makes exactly 200 attempts and sleeps exactly 200 times
one second before the elapsed time is printed, 200 seconds in all. -/
theorem C2_poll_bounded_by_200 (smtpconf : smtpCfg) (imapconf : imapCfg) (w : World) :
    (∃ m tail, pollEvents (main smtpconf imapconf w).trace =
        completeAttempts smtpconf w.now m ++ tail ∧
      ((tail = [] ∧ m ≤ 200) ∨
        ((main smtpconf imapconf w).exitCode = 1 ∧ m + 1 ≤ 200 ∧
          (tail = [Event.imapSelect "INBOX" false] ∨
           tail = [Event.imapSelect "INBOX" false,
             Event.imapSend "UID SEARCH" (searchField smtpconf w.now)])))) ∧
    ((∀ k < 200, emptyAttempt w k) → Event.smtpQuit ∈ (main smtpconf imapconf w).trace →
      (main smtpconf imapconf w).exitCode = 0 ∧
      ∃ pre post, (main smtpconf imapconf w).trace =
          pre ++ Event.stdout (report imapconf w.sinceEnd) :: post ∧
        pollEvents pre = completeAttempts smtpconf w.now 200 ∧ slept pre = 200 ∧
        pollEvents post = []) := by
  constructor
  · rw [pollEvents_main]
    by_cases h : allOk (steps smtpconf imapconf w) = true
    · obtain ⟨m, tail, h1, h2⟩ := pollLoop_shape smtpconf imapconf w w.now 200 [] NewSeqSet
      refine ⟨m, tail, by simpa [h, poll] using h1, ?_⟩
      rcases h2 with h2 | ⟨h2, h3, h4⟩
      · exact Or.inl h2
      · refine Or.inr ⟨?_, h3, h4⟩
        rw [main_shape]
        simp [h, poll, h2]
    · exact ⟨0, [], by simp [h, completeAttempts], Or.inl ⟨rfl, Nat.zero_le _⟩⟩
  · intro hall hq
    obtain ⟨h1, _, _, h4⟩ :=
      pollLoop_all_empty smtpconf imapconf w w.now hall 200 [] NewSeqSet (le_refl _) rfl
    exact split_at_report smtpconf imapconf w 200 hq h1 h4

/-- C2 at a run in which no search ever returns an identifier. -/
theorem C2_poll_bounded_by_200_witness :
    (∀ k < 200, emptyAttempt worldNeverFound k) ∧
    Event.smtpQuit ∈ (main smtpEx imapEx worldNeverFound).trace ∧
    (main smtpEx imapEx worldNeverFound).exitCode = 0 ∧
    ∃ pre post, (main smtpEx imapEx worldNeverFound).trace =
        pre ++ Event.stdout (report imapEx worldNeverFound.sinceEnd) :: post ∧
      pollEvents pre = completeAttempts smtpEx worldNeverFound.now 200 ∧ slept pre = 200 ∧
      pollEvents post = [] :=
  ⟨fun _ _ => ⟨rfl, [], rfl, by simp⟩, by decide,
   (C2_poll_bounded_by_200 smtpEx imapEx worldNeverFound).2
     (fun _ _ => ⟨rfl, [], rfl, by simp⟩) (by decide)⟩

/-- C3, as the claim states it, fails: in the first run each of the 200
attempts is made and finds nothing, in the second the message is found on
attempt 200; with the same elapsed seconds and the same configuration, the two
runs make the same poll commands, write the same standard output and the same
(empty) error output, and end with the same exit status. -/
theorem C3_counterexample :
    (∀ k < 200, emptyAttempt worldNeverFound k) ∧
    pollEvents (main smtpEx imapEx worldNeverFound).trace = completeAttempts smtpEx timeEx 200 ∧
    (poll smtpEx imapEx worldNeverFound).uidslice = [] ∧
    (poll smtpEx imapEx worldNeverFound).set = [] ∧
    worldFoundLast.imapSearch 199 = Except.ok [[7]] ∧
    (poll smtpEx imapEx worldFoundLast).uidslice = [7] ∧
    pollEvents (main smtpEx imapEx worldFoundLast).trace = completeAttempts smtpEx timeEx 200 ∧
    stdoutOf (main smtpEx imapEx worldNeverFound).trace =
      stdoutOf (main smtpEx imapEx worldFoundLast).trace ∧
    (main smtpEx imapEx worldNeverFound).trace.filter Event.isStderr =
      (main smtpEx imapEx worldFoundLast).trace.filter Event.isStderr ∧
    (main smtpEx imapEx worldNeverFound).exitCode =
      (main smtpEx imapEx worldFoundLast).exitCode :=
  ⟨fun _ _ => ⟨rfl, [], rfl, by simp⟩, by decide, by decide, by decide, rfl, by decide,
    by decide, by decide, by decide, by decide⟩

/-- C3, amended: `main` has no timeout outcome.  Take a run whose submission
has completed and whose poll loop is left without `os.Exit` with an empty
`uidslice`, and a run whose submission has completed and whose poll loop is
left with a non-empty `uidslice`.  The first has made all 200 attempts and the
second between 1 and 200; both end with exit status 0, and for the same elapsed
seconds and the same IMAP configuration the last line of the standard output
is the same line of the elapsed time in both; without the debug mode the whole
standard output is that line in both. -/
theorem C3_timeout_reported_like_found (smtpconf : smtpCfg) (imapconf : imapCfg)
    (w₁ w₂ : World)
    (hq₁ : Event.smtpQuit ∈ (main smtpconf imapconf w₁).trace)
    (hq₂ : Event.smtpQuit ∈ (main smtpconf imapconf w₂).trace)
    (hex₁ : (poll smtpconf imapconf w₁).exited = false)
    (hex₂ : (poll smtpconf imapconf w₂).exited = false)
    (timedOut : (poll smtpconf imapconf w₁).uidslice = [])
    (found : (poll smtpconf imapconf w₂).uidslice ≠ [])
    (hs : w₁.sinceEnd = w₂.sinceEnd) :
    (main smtpconf imapconf w₁).exitCode = 0 ∧
    (main smtpconf imapconf w₂).exitCode = 0 ∧
    pollEvents (main smtpconf imapconf w₁).trace = completeAttempts smtpconf w₁.now 200 ∧
    (∃ m, 1 ≤ m ∧ m ≤ 200 ∧
      pollEvents (main smtpconf imapconf w₂).trace = completeAttempts smtpconf w₂.now m) ∧
    (stdoutOf (main smtpconf imapconf w₁).trace).getLast? = some (report imapconf w₁.sinceEnd) ∧
    (stdoutOf (main smtpconf imapconf w₂).trace).getLast? = some (report imapconf w₁.sinceEnd) ∧
    (imapconf.debug = false →
      stdoutOf (main smtpconf imapconf w₁).trace = [report imapconf w₁.sinceEnd] ∧
      stdoutOf (main smtpconf imapconf w₂).trace = [report imapconf w₁.sinceEnd]) := by
  have ok₁ := (quit_mem_iff smtpconf imapconf w₁).1 hq₁
  have ok₂ := (quit_mem_iff smtpconf imapconf w₂).1 hq₂
  have h₁ : (main smtpconf imapconf w₁).exitCode = 0 :=
    (exitCode_eq_zero smtpconf imapconf w₁).2 ⟨ok₁, hex₁⟩
  have h₂ : (main smtpconf imapconf w₂).exitCode = 0 :=
    (exitCode_eq_zero smtpconf imapconf w₂).2 ⟨ok₂, hex₂⟩
  obtain ⟨a1, a2⟩ := stdoutOf_of_exit_zero smtpconf imapconf w₁ h₁
  obtain ⟨b1, b2⟩ := stdoutOf_of_exit_zero smtpconf imapconf w₂ h₂
  rw [← hs] at b1 b2
  refine ⟨h₁, h₂, ?_, ?_, a1, b1, fun hd => ⟨a2 hd, b2 hd⟩⟩
  · rw [pollEvents_main, if_pos ok₁]
    exact pollLoop_exhausted smtpconf imapconf w₁ w₁.now 200 [] NewSeqSet rfl hex₁ timedOut
  · rw [pollEvents_main, if_pos ok₂]
    exact pollLoop_hit smtpconf imapconf w₂ w₂.now 200 [] NewSeqSet rfl hex₂ found

/-- C3, amended, at a run that exhausts the 200 attempts and a run that finds
the message on attempt 200. -/
theorem C3_timeout_reported_like_found_witness :
    Event.smtpQuit ∈ (main smtpEx imapEx worldNeverFound).trace ∧
    Event.smtpQuit ∈ (main smtpEx imapEx worldFoundLast).trace ∧
    (poll smtpEx imapEx worldNeverFound).exited = false ∧
    (poll smtpEx imapEx worldFoundLast).exited = false ∧
    (poll smtpEx imapEx worldNeverFound).uidslice = [] ∧
    (poll smtpEx imapEx worldFoundLast).uidslice ≠ [] ∧
    worldNeverFound.sinceEnd = worldFoundLast.sinceEnd ∧
    ((main smtpEx imapEx worldNeverFound).exitCode = 0 ∧
    (main smtpEx imapEx worldFoundLast).exitCode = 0 ∧
    pollEvents (main smtpEx imapEx worldNeverFound).trace =
      completeAttempts smtpEx worldNeverFound.now 200 ∧
    (∃ m, 1 ≤ m ∧ m ≤ 200 ∧
      pollEvents (main smtpEx imapEx worldFoundLast).trace =
        completeAttempts smtpEx worldFoundLast.now m) ∧
    (stdoutOf (main smtpEx imapEx worldNeverFound).trace).getLast? =
      some (report imapEx worldNeverFound.sinceEnd) ∧
    (stdoutOf (main smtpEx imapEx worldFoundLast).trace).getLast? =
      some (report imapEx worldNeverFound.sinceEnd) ∧
    (imapEx.debug = false →
      stdoutOf (main smtpEx imapEx worldNeverFound).trace =
        [report imapEx worldNeverFound.sinceEnd] ∧
      stdoutOf (main smtpEx imapEx worldFoundLast).trace =
        [report imapEx worldNeverFound.sinceEnd])) :=
  ⟨by decide, by decide, by decide, by decide, by decide, by decide, rfl,
    C3_timeout_reported_like_found smtpEx imapEx worldNeverFound worldFoundLast
      (by decide) (by decide) (by decide) (by decide) (by decide) (by decide) rfl⟩

/-- C4: if the SMTP submission fails at any stage (connection, implicit TLS,
hello, STARTTLS, authentication, MAIL FROM, RCPT TO, opening DATA, writing the
message, closing DATA), the run ends with exit status 1, and no `SELECT`, no
`UID SEARCH`, no `UID STORE`, no `EXPUNGE` is issued and nothing is written to
the standard output, so no elapsed time is reported. -/
theorem C4_smtp_failure_short_circuits (smtpconf : smtpCfg) (imapconf : imapCfg) (w : World)
    (h : smtpFails smtpconf w) :
    (main smtpconf imapconf w).exitCode = 1 ∧
    ∀ e ∈ (main smtpconf imapconf w).trace,
      e.isSelect = false ∧ e.isSearch = false ∧ e.isCleanup = false ∧ e.isStdout = false := by
  rw [main_eq, runSteps_eq, not_allOk_of_smtpFails smtpconf imapconf w w.now h]
  refine ⟨by simp, ?_⟩
  intro e he
  simp only [Bool.false_eq_true, if_false, List.mem_append] at he
  rcases he with he | he
  · have := steps_events smtpconf imapconf w w.now e (issuedEv_sub _ e he)
    exact ⟨this.1, this.2.1, this.2.2.2.1, this.2.2.2.2.1⟩
  · obtain ⟨t, rfl⟩ := failMsg_stderr _ e he
    simp [Event.isSelect, Event.isSearch, Event.isCleanup, Event.isStdout]

/-- C4 at a run in which `MAIL FROM` is rejected. -/
theorem C4_smtp_failure_short_circuits_witness :
    smtpFails smtpEx { World.quiet timeEx (fun _ => Except.ok [[7]]) 3 with
      smtpMail := some "550 rejected" } ∧
    (main smtpEx imapEx { World.quiet timeEx (fun _ => Except.ok [[7]]) 3 with
      smtpMail := some "550 rejected" }).exitCode = 1 ∧
    ∀ e ∈ (main smtpEx imapEx { World.quiet timeEx (fun _ => Except.ok [[7]]) 3 with
      smtpMail := some "550 rejected" }).trace,
      e.isSelect = false ∧ e.isSearch = false ∧ e.isCleanup = false ∧ e.isStdout = false :=
  ⟨by decide, C4_smtp_failure_short_circuits smtpEx imapEx _ (by decide)⟩

/-- C5, as the claim states it, fails.  When the IMAP login is rejected, the
run is the IMAP connection, the login and the message of the error: nothing is
sent over SMTP.  When `MAIL FROM` is rejected, the run starts with the IMAP
connection and the IMAP login, made before the SMTP connection. -/
theorem C5_counterexample :
    (main smtpEx imapEx worldLoginRejected).trace =
      [Event.imapDial "imap.example.org:143", Event.imapLogin "inbox" "secret",
       Event.stderr "Error logging in to IMAP server (imap.example.org): NO LOGIN failed\n"] ∧
    (main smtpEx imapEx worldMailRejected).trace =
      [Event.imapDial "imap.example.org:143", Event.imapLogin "inbox" "secret", Event.timeNow,
       Event.smtpDial "mx.example.org:25", Event.smtpHello "probe",
       Event.smtpMail "probe@example.org",
       Event.stderr "Error sending MAIL FROM command (mx.example.org): 550 rejected\n"] := by
  decide

/-- C5, amended: the IMAP connection and the IMAP login come before the SMTP
submission.  When the IMAP connection or the login is rejected, the run ends
with status 1 and nothing is attempted on the SMTP side; and whenever
something is attempted on the SMTP side (in particular when `MAIL FROM` is
rejected), the IMAP connection and the login have succeeded and are the first
two calls of the run, followed by the clock reading, with no other connection
to the IMAP server and no other login after them. -/
theorem C5_imap_login_before_smtp (smtpconf : smtpCfg) (imapconf : imapCfg) (w : World) :
    (imapDialAnswer imapconf w ≠ none ∨ w.imapLogin ≠ none →
      (main smtpconf imapconf w).exitCode = 1 ∧
      ∀ e ∈ (main smtpconf imapconf w).trace, e.isSmtp = false) ∧
    ((∃ e ∈ (main smtpconf imapconf w).trace, e.isSmtp = true) →
      imapDialAnswer imapconf w = none ∧ w.imapLogin = none ∧
      ∃ rest, (main smtpconf imapconf w).trace =
          imapDialEvent imapconf :: Event.imapLogin imapconf.username imapconf.password ::
            Event.timeNow :: rest ∧
        ∀ e ∈ rest, e.isImapConnect = false) := by
  have hmain := main_eq smtpconf imapconf w
  unfold connectSteps at hmain
  simp only [List.cons_append, List.nil_append, runSteps] at hmain
  have hdial : (imapDialEvent imapconf).isSmtp = false := by
    unfold imapDialEvent; split <;> rfl
  cases hd : imapDialAnswer imapconf w with
  | some e1 =>
    rw [hd] at hmain
    simp only [fatal] at hmain
    rw [hmain]
    refine ⟨fun _ => ⟨rfl, ?_⟩, ?_⟩
    · intro e he
      simp only [List.mem_cons, List.not_mem_nil, or_false] at he
      rcases he with rfl | rfl
      · exact hdial
      · rfl
    · rintro ⟨e, he, hs⟩
      simp only [List.mem_cons, List.not_mem_nil, or_false] at he
      rcases he with rfl | rfl
      · rw [hdial] at hs; exact absurd hs (by simp)
      · exact absurd hs (by simp [Event.isSmtp, Event.isSmtpCommand])
  | none =>
    cases hl : w.imapLogin with
    | some e2 =>
      rw [hd, hl] at hmain
      simp only [fatal] at hmain
      rw [hmain]
      refine ⟨fun _ => ⟨rfl, ?_⟩, ?_⟩
      · intro e he
        simp only [List.mem_cons, List.not_mem_nil, or_false] at he
        rcases he with rfl | rfl | rfl
        · exact hdial
        · rfl
        · rfl
      · rintro ⟨e, he, hs⟩
        simp only [List.mem_cons, List.not_mem_nil, or_false] at he
        rcases he with rfl | rfl | rfl
        · rw [hdial] at hs; exact absurd hs (by simp)
        · exact absurd hs (by simp [Event.isSmtp, Event.isSmtpCommand])
        · exact absurd hs (by simp [Event.isSmtp, Event.isSmtpCommand])
    | none =>
      rw [hd, hl] at hmain
      simp only [fatal] at hmain
      rw [hmain]
      refine ⟨fun h => ?_, fun _ => ⟨rfl, rfl, _, rfl, ?_⟩⟩
      · rcases h with h | h <;> exact absurd rfl h
      · exact after_login_events smtpconf imapconf w

/-- C5, amended, at a run in which the IMAP login is rejected and at a run in
which `MAIL FROM` is rejected. -/
theorem C5_imap_login_before_smtp_witness :
    (imapDialAnswer imapEx worldLoginRejected ≠ none ∨ worldLoginRejected.imapLogin ≠ none) ∧
    ((main smtpEx imapEx worldLoginRejected).exitCode = 1 ∧
      ∀ e ∈ (main smtpEx imapEx worldLoginRejected).trace, e.isSmtp = false) ∧
    (∃ e ∈ (main smtpEx imapEx worldMailRejected).trace, e.isSmtp = true) ∧
    (imapDialAnswer imapEx worldMailRejected = none ∧ worldMailRejected.imapLogin = none ∧
      ∃ rest, (main smtpEx imapEx worldMailRejected).trace =
          imapDialEvent imapEx :: Event.imapLogin imapEx.username imapEx.password ::
            Event.timeNow :: rest ∧
        ∀ e ∈ rest, e.isImapConnect = false) :=
  ⟨by decide, (C5_imap_login_before_smtp smtpEx imapEx worldLoginRejected).1 (by decide),
    by decide, (C5_imap_login_before_smtp smtpEx imapEx worldMailRejected).2 (by decide)⟩

/-- C6: the SMTP commands of a run are an initial segment of the canonical
sequence of the configuration; once the session has started (`Hello` sent) they
are that sequence up to and including the first command answered with an
error, and when `Hello` is not sent no command is; the answer to `Quit` changes
nothing.  When STARTTLS is configured and the upgrade fails, the run ends with
status 1 and at most `Hello` and `StartTLS` are sent: no `Auth`, `Mail`, `Rcpt`
or `Data`. -/
theorem C6_smtp_command_sequence (smtpconf : smtpCfg) (imapconf : imapCfg) (w : World) :
    (main smtpconf imapconf w).trace.filter Event.isSmtpCommand <+:
      (canonical smtpconf w w.now).map Prod.fst ∧
    (Event.smtpHello smtpconf.helloName ∈ (main smtpconf imapconf w).trace →
      (main smtpconf imapconf w).trace.filter Event.isSmtpCommand =
        throughFirstFailure (canonical smtpconf w w.now)) ∧
    (Event.smtpHello smtpconf.helloName ∉ (main smtpconf imapconf w).trace →
      (main smtpconf imapconf w).trace.filter Event.isSmtpCommand = []) ∧
    (smtpconf.sTARTLS = true → w.smtpStartTLS ≠ none →
      (main smtpconf imapconf w).exitCode = 1 ∧
      (main smtpconf imapconf w).trace.filter Event.isSmtpCommand <+:
        [Event.smtpHello smtpconf.helloName, Event.smtpStartTLS]) ∧
    (∀ q, main smtpconf imapconf { w with smtpQuit := q } = main smtpconf imapconf w) := by
  have hcmds := cmds_main smtpconf imapconf w
  refine ⟨?_, ?_, ?_, ?_, main_quit_answer smtpconf imapconf w⟩
  · rw [hcmds]
    split
    · exact throughFirstFailure_initial _
    · exact ⟨_, rfl⟩
  · intro hh
    have hmem : Event.smtpHello smtpconf.helloName ∈
        (main smtpconf imapconf w).trace.filter Event.isSmtpCommand :=
      List.mem_filter.2 ⟨hh, rfl⟩
    rw [hcmds] at hmem ⊢
    split
    · rfl
    · rename_i hc
      simp [hc] at hmem
  · intro hh
    rw [hcmds]
    split
    · rename_i hc
      have hmem := hello_mem_throughFirstFailure smtpconf w w.now
      rw [← if_pos hc (t := throughFirstFailure (canonical smtpconf w w.now)) (e := []),
        ← hcmds] at hmem
      exact absurd (List.mem_filter.1 hmem).1 hh
    · rfl
  · intro htls hfail
    constructor
    · rw [main_eq, runSteps_eq, not_allOk_of_smtpFails smtpconf imapconf w w.now
        (Or.inr (Or.inr (Or.inr (Or.inl ⟨htls, hfail⟩))))]
      simp
    · rw [hcmds]
      split
      · unfold canonical
        simp only [htls, if_true, List.singleton_append, List.cons_append, throughFirstFailure]
        cases hh : w.smtpHello with
        | some e => exact ⟨[Event.smtpStartTLS], by simp⟩
        | none =>
          cases hs : w.smtpStartTLS with
          | some e => exact ⟨[], by simp⟩
          | none => exact absurd hs hfail
      · exact ⟨_, rfl⟩

/-- C6 at a run with STARTTLS and CRAM-MD5 configured in which the upgrade is
refused. -/
theorem C6_smtp_command_sequence_witness :
    Event.smtpHello smtpTlsEx.helloName ∈ (main smtpTlsEx imapEx worldTlsRefused).trace ∧
    (main smtpTlsEx imapEx worldTlsRefused).trace.filter Event.isSmtpCommand =
      [Event.smtpHello "probe", Event.smtpStartTLS] ∧
    (main smtpTlsEx imapEx worldTlsRefused).trace.filter Event.isSmtpCommand =
      throughFirstFailure (canonical smtpTlsEx worldTlsRefused worldTlsRefused.now) ∧
    smtpTlsEx.sTARTLS = true ∧ worldTlsRefused.smtpStartTLS ≠ none ∧
    ((main smtpTlsEx imapEx worldTlsRefused).exitCode = 1 ∧
      (main smtpTlsEx imapEx worldTlsRefused).trace.filter Event.isSmtpCommand <+:
        [Event.smtpHello smtpTlsEx.helloName, Event.smtpStartTLS]) :=
  ⟨by decide, by decide,
    (C6_smtp_command_sequence smtpTlsEx imapEx worldTlsRefused).2.1 (by decide),
    by decide, by decide,
    (C6_smtp_command_sequence smtpTlsEx imapEx worldTlsRefused).2.2.2.1 (by decide) (by decide)⟩

/-- C7: the tag is the format of the start time followed by the subject, and
a run uses one tag: every message written to the SMTP server has that tag
after `Subject: `, and every command sent with `Send` is a `UID SEARCH` whose
field is `SUBJECT` and that tag between quotes, at every attempt.  For a civil
time with a four-digit year the format is the fourteen digits
yyyyMMddHHmmss. -/
theorem C7_one_tag_per_run (smtpconf : smtpCfg) (imapconf : imapCfg) (w : World) :
    tag smtpconf w.now = w.now.Format20060102150405 ++ smtpconf.subject ∧
    (∀ e ∈ (main smtpconf imapconf w).trace,
      (∀ msg, e = Event.smtpWrite msg →
        msg = "From: " ++ smtpconf.mailFrom ++ "\nTo: " ++ smtpconf.rcpt ++ "\nSubject: " ++
          tag smtpconf w.now ++ "\n\nTest message to monitor mail delivery\n.\n\n") ∧
      (∀ name field, e = Event.imapSend name field →
        name = "UID SEARCH" ∧ field = "SUBJECT \"" ++ tag smtpconf w.now ++ "\"")) ∧
    (w.now.valid →
      w.now.Format20060102150405.length = 14 ∧
      w.now.Format20060102150405 = String.mk
        [digitChar (w.now.year / 1000), digitChar (w.now.year / 100),
          digitChar (w.now.year / 10), digitChar w.now.year,
          digitChar (w.now.month / 10), digitChar w.now.month,
          digitChar (w.now.day / 10), digitChar w.now.day,
          digitChar (w.now.hour / 10), digitChar w.now.hour,
          digitChar (w.now.minute / 10), digitChar w.now.minute,
          digitChar (w.now.second / 10), digitChar w.now.second]) := by
  refine ⟨rfl, ?_, fun hv => ⟨by rw [format_valid w.now hv]; rfl, format_valid w.now hv⟩⟩
  intro e he
  have hmsg : smtpMsg smtpconf w.now =
      "From: " ++ smtpconf.mailFrom ++ "\nTo: " ++ smtpconf.rcpt ++ "\nSubject: " ++
        tag smtpconf w.now ++ "\n\nTest message to monitor mail delivery\n.\n\n" := by
    simp only [smtpMsg, tag, String.append_assoc]
  have hfield : searchField smtpconf w.now = "SUBJECT \"" ++ tag smtpconf w.now ++ "\"" := by
    simp only [searchField, tag, String.append_assoc]
  rcases mem_trace_cases smtpconf imapconf w e he with
    he | rfl | ⟨t, rfl⟩ | ⟨t, rfl⟩ | he | he
  · constructor
    · rintro msg rfl
      rw [steps_write smtpconf imapconf w msg he, hmsg]
    · rintro name field rfl
      have := (steps_events smtpconf imapconf w w.now _ he).2.1
      simp [Event.isSearch] at this
  · exact ⟨fun _ h => (nomatch h), fun _ _ h => (nomatch h)⟩
  · exact ⟨fun _ h => (nomatch h), fun _ _ h => (nomatch h)⟩
  · exact ⟨fun _ h => (nomatch h), fun _ _ h => (nomatch h)⟩
  · rcases pollLoop_events smtpconf imapconf w w.now 200 [] NewSeqSet e he with
      rfl | rfl | rfl | ⟨⟨t, rfl⟩, _⟩ | ⟨⟨t, rfl⟩, _⟩
    · exact ⟨fun _ h => (nomatch h), fun _ _ h => (nomatch h)⟩
    · refine ⟨fun _ h => (nomatch h), fun name field h => ?_⟩
      cases h
      exact ⟨rfl, hfield⟩
    · exact ⟨fun _ h => (nomatch h), fun _ _ h => (nomatch h)⟩
    · exact ⟨fun _ h => (nomatch h), fun _ _ h => (nomatch h)⟩
    · exact ⟨fun _ h => (nomatch h), fun _ _ h => (nomatch h)⟩
  · constructor
    · rintro msg rfl
      unfold cleanup at he
      cases h1 : w.imapUIDStore <;> cases h2 : w.imapExpunge <;> simp [h1, h2] at he
    · rintro name field rfl
      have := (cleanup_events imapconf w _ _ he).2.1
      simp [Event.isSearch] at this

/-- C7 at the clock reading 7 March 2024, 09:05:01. -/
theorem C7_one_tag_per_run_witness :
    timeEx.valid ∧
    tag smtpEx timeEx = "20240307090501Delivery quality monitoring" ∧
    timeEx.Format20060102150405.length = 14 ∧
    timeEx.Format20060102150405 = String.mk
      [digitChar (timeEx.year / 1000), digitChar (timeEx.year / 100),
        digitChar (timeEx.year / 10), digitChar timeEx.year,
        digitChar (timeEx.month / 10), digitChar timeEx.month,
        digitChar (timeEx.day / 10), digitChar timeEx.day,
        digitChar (timeEx.hour / 10), digitChar timeEx.hour,
        digitChar (timeEx.minute / 10), digitChar timeEx.minute,
        digitChar (timeEx.second / 10), digitChar timeEx.second] :=
  ⟨by decide, by decide,
    (C7_one_tag_per_run smtpEx imapEx (World.quiet timeEx (fun _ => Except.ok [[7]]) 1)).2.2
      (by decide)⟩

/-- C8: the answers to `UID STORE` and `EXPUNGE` change neither the exit
status, nor the standard output, nor any call of the run: they only add
messages on the error stream.  In a run that reaches the end of polling (exit
status 0), the elapsed time is printed before any cleanup command, and the
cleanup is `UID STORE`, then `EXPUNGE`, then `Logout`, each followed by a
warning on the error stream only when it failed; `EXPUNGE` is issued also
after a failed `UID STORE`. -/
theorem C8_cleanup_failure_keeps_result (smtpconf : smtpCfg) (imapconf : imapCfg) (w : World)
    (st ex : Option String) :
    (main smtpconf imapconf { w with imapUIDStore := st, imapExpunge := ex }).exitCode =
      (main smtpconf imapconf w).exitCode ∧
    stdoutOf (main smtpconf imapconf { w with imapUIDStore := st, imapExpunge := ex }).trace =
      stdoutOf (main smtpconf imapconf w).trace ∧
    (main smtpconf imapconf { w with imapUIDStore := st, imapExpunge := ex }).trace.filter
        (fun e => !e.isStderr) =
      (main smtpconf imapconf w).trace.filter (fun e => !e.isStderr) ∧
    ((main smtpconf imapconf w).exitCode = 0 →
      ∃ pre set warn₁ warn₂,
        (main smtpconf imapconf w).trace =
          pre ++ [Event.stdout (report imapconf w.sinceEnd),
            Event.imapUIDStore set "+FLAGS" "(\\Deleted)"] ++ warn₁ ++
            [Event.imapExpunge] ++ warn₂ ++ [Event.imapLogout] ∧
        (∀ e ∈ pre, e.isCleanup = false) ∧
        (∀ e ∈ warn₁ ++ warn₂, e.isStderr = true) ∧
        (warn₁ = [] ↔ w.imapUIDStore = none) ∧ (warn₂ = [] ↔ w.imapExpunge = none)) := by
  have hsteps : steps smtpconf imapconf { w with imapUIDStore := st, imapExpunge := ex } =
      steps smtpconf imapconf w := rfl
  have hopen : opening smtpconf imapconf { w with imapUIDStore := st, imapExpunge := ex } =
      opening smtpconf imapconf w := rfl
  have hpoll : poll smtpconf imapconf { w with imapUIDStore := st, imapExpunge := ex } =
      poll smtpconf imapconf w :=
    pollLoop_cleanup_answers smtpconf imapconf w w.now st ex 200 [] NewSeqSet
  have hshape := main_shape smtpconf imapconf { w with imapUIDStore := st, imapExpunge := ex }
  rw [hsteps, hopen, hpoll] at hshape
  refine ⟨?_, ?_, ?_, ?_⟩
  · rw [hshape, main_shape smtpconf imapconf w]
    by_cases h : allOk (steps smtpconf imapconf w) = true
    · cases hex : (poll smtpconf imapconf w).exited <;> simp [h, hex]
    · simp [h]
  · rw [hshape, main_shape smtpconf imapconf w]
    by_cases h : allOk (steps smtpconf imapconf w) = true
    · cases hex : (poll smtpconf imapconf w).exited
      · simp only [h, hex, if_true, Bool.false_eq_true, if_false, stdoutOf_append,
          stdoutOf_cleanup]
      · simp [h, hex]
    · simp [h]
  · rw [hshape, main_shape smtpconf imapconf w]
    by_cases h : allOk (steps smtpconf imapconf w) = true
    · cases hex : (poll smtpconf imapconf w).exited
      · simp only [h, hex, if_true, Bool.false_eq_true, if_false, List.filter_append,
          cleanup_filter]
      · simp [h, hex]
    · simp [h]
  · intro h0
    refine ⟨opening smtpconf imapconf w ++ (poll smtpconf imapconf w).trace,
      (poll smtpconf imapconf w).set,
      (match w.imapUIDStore with
       | some e => [Event.stderr ("Error setting Deleted flag for messages (" ++
           imapconf.server ++ "): " ++ e ++ "\n ")]
       | none => []),
      (match w.imapExpunge with
       | some e => [Event.stderr ("Error deleting messages (" ++ imapconf.server ++ "): " ++
           e ++ "\n")]
       | none => []), ?_, before_report_events smtpconf imapconf w, ?_, ?_, ?_⟩
    · rw [trace_of_exit_zero smtpconf imapconf w h0]
      simp [cleanup]
    · intro e he
      cases h1 : w.imapUIDStore <;> cases h2 : w.imapExpunge <;> simp [h1, h2] at he <;>
        (try rcases he with rfl | rfl) <;> rfl
    · cases w.imapUIDStore <;> simp
    · cases w.imapExpunge <;> simp

/-- C8 at a run that finds the message and whose `UID STORE` and `EXPUNGE`
both fail. -/
theorem C8_cleanup_failure_keeps_result_witness :
    (main smtpEx imapEx { World.quiet timeEx (fun _ => Except.ok [[7]]) 1 with
      imapUIDStore := some "NO", imapExpunge := some "NO" }).exitCode = 0 ∧
    ∃ pre set warn₁ warn₂,
      (main smtpEx imapEx { World.quiet timeEx (fun _ => Except.ok [[7]]) 1 with
        imapUIDStore := some "NO", imapExpunge := some "NO" }).trace =
        pre ++ [Event.stdout (report imapEx 1),
          Event.imapUIDStore set "+FLAGS" "(\\Deleted)"] ++ warn₁ ++
          [Event.imapExpunge] ++ warn₂ ++ [Event.imapLogout] ∧
      (∀ e ∈ pre, e.isCleanup = false) ∧
      (∀ e ∈ warn₁ ++ warn₂, e.isStderr = true) ∧
      (warn₁ = [] ↔ (some "NO" : Option String) = none) ∧
      (warn₂ = [] ↔ (some "NO" : Option String) = none) :=
  ⟨by decide, (C8_cleanup_failure_keeps_result smtpEx imapEx
    { World.quiet timeEx (fun _ => Except.ok [[7]]) 1 with
      imapUIDStore := some "NO", imapExpunge := some "NO" } none none).2.2.2 (by decide)⟩

/-- C9: in a run that reaches the cleanup (exit status 0), the set passed to
`UID STORE +FLAGS (\Deleted)` holds exactly the identifiers of all the responses
of all the searches made in the run, `UID STORE` is issued once and before
`EXPUNGE`; and the set only grows: neither `AddNum` nor the loop over the
responses of an attempt removes an identifier. -/
theorem C9_store_set_is_union_of_results (smtpconf : smtpCfg) (imapconf : imapCfg) (w : World)
    (h : (main smtpconf imapconf w).exitCode = 0) :
    (∃ pre mid post set,
      (main smtpconf imapconf w).trace =
        pre ++ Event.imapUIDStore set "+FLAGS" "(\\Deleted)" :: mid ++
          Event.imapExpunge :: post ∧
      (∀ e ∈ pre ++ mid ++ post, e.isCleanup = false) ∧
      ∀ x, x ∈ set ↔
        ∃ k < (main smtpconf imapconf w).trace.countP Event.isSearch,
          ∃ data, w.imapSearch k = Except.ok data ∧ ∃ b ∈ data, x ∈ b) ∧
    (∀ (set : SeqSet) (n x : Nat), x ∈ set → x ∈ set.AddNum n) ∧
    (∀ (data : List (List Nat)) (u : List Nat) (set : SeqSet) (x : Nat),
      x ∈ set → x ∈ (rangeData imapconf data u set).2.2) := by
  refine ⟨?_, fun set n x hx => (mem_AddNum set n x).2 (Or.inl hx),
    fun data u set x hx => (mem_rangeData imapconf data u set x).2 (Or.inl hx)⟩
  obtain ⟨_, hex⟩ := (exitCode_eq_zero smtpconf imapconf w).1 h
  refine ⟨opening smtpconf imapconf w ++ (poll smtpconf imapconf w).trace ++
      [Event.stdout (report imapconf w.sinceEnd)],
    (match w.imapUIDStore with
     | some e => [Event.stderr ("Error setting Deleted flag for messages (" ++
         imapconf.server ++ "): " ++ e ++ "\n ")]
     | none => []),
    (match w.imapExpunge with
     | some e => [Event.stderr ("Error deleting messages (" ++ imapconf.server ++ "): " ++
         e ++ "\n")]
     | none => []) ++ [Event.imapLogout],
    (poll smtpconf imapconf w).set, ?_, ?_, ?_⟩
  · rw [trace_of_exit_zero smtpconf imapconf w h]
    simp [cleanup]
  · intro e he
    simp only [List.mem_append, List.mem_singleton] at he
    rcases he with ((((he | he) | rfl) | he) | he | rfl)
    · exact before_report_events smtpconf imapconf w e (List.mem_append_left _ he)
    · exact before_report_events smtpconf imapconf w e (List.mem_append_right _ he)
    · rfl
    · split at he
      · simp only [List.mem_singleton] at he; subst he; rfl
      · simp at he
    · split at he
      · simp only [List.mem_singleton] at he; subst he; rfl
      · simp at he
    · rfl
  · intro x
    rw [countP_search_main smtpconf imapconf w h]
    have := pollLoop_set smtpconf imapconf w w.now 200 [] NewSeqSet (le_refl _) hex x
    unfold poll
    rw [this]
    simp [NewSeqSet]

/-- C9 at a run whose first search returns two responses and finds the
message. -/
theorem C9_store_set_is_union_of_results_witness :
    (main smtpEx imapEx (World.quiet timeEx (fun _ => Except.ok [[4, 7], [9]]) 1)).exitCode = 0 ∧
    ∃ pre mid post set,
      (main smtpEx imapEx (World.quiet timeEx (fun _ => Except.ok [[4, 7], [9]]) 1)).trace =
        pre ++ Event.imapUIDStore set "+FLAGS" "(\\Deleted)" :: mid ++
          Event.imapExpunge :: post ∧
      (∀ e ∈ pre ++ mid ++ post, e.isCleanup = false) ∧
      ∀ x, x ∈ set ↔
        ∃ k < (main smtpEx imapEx
            (World.quiet timeEx (fun _ => Except.ok [[4, 7], [9]]) 1)).trace.countP Event.isSearch,
          ∃ data, (World.quiet timeEx (fun _ => Except.ok [[4, 7], [9]]) 1).imapSearch k =
            Except.ok data ∧ ∃ b ∈ data, x ∈ b :=
  ⟨by decide, (C9_store_set_is_union_of_results smtpEx imapEx
    (World.quiet timeEx (fun _ => Except.ok [[4, 7], [9]]) 1) (by decide)).1⟩

/-- C10, as the claim states it, fails: the message is found on attempt 1, and
one sleep of one second follows that search before the elapsed time is
printed, where the claim has no sleep. -/
theorem C10_counterexample :
    (World.quiet timeEx (fun _ => Except.ok [[7]]) 1).imapSearch 0 = Except.ok [[7]] ∧
    (main smtpEx imapEx (World.quiet timeEx (fun _ => Except.ok [[7]]) 1)).trace.filter
        (fun e => e.isSelect || e.isSearch || e.isSleep || e.isStdout) =
      [Event.imapSelect "INBOX" false,
       Event.imapSend "UID SEARCH" "SUBJECT \"20240307090501Delivery quality monitoring\"",
       Event.sleep 1,
       Event.stdout "Time to send and recieve message with IMAP (imap.example.org): 1\n"] ∧
    slept (main smtpEx imapEx (World.quiet timeEx (fun _ => Except.ok [[7]]) 1)).trace ≠ 1 - 1 :=
  ⟨rfl, by decide, by decide⟩

/-- C10, amended: the poll loop sleeps one second after every attempt, the
successful one included.  When the submission has completed, every attempt
before attempt `k` completes with an empty last response (so that the loop
goes on, whatever the earlier responses of that attempt hold) and the search
of attempt `k` ends with a non-empty response, the loop stops at attempt `k`
and exactly `k` sleeps of one second are made before the elapsed time is
printed. -/
theorem C10_one_sleep_per_attempt (smtpconf : smtpCfg) (imapconf : imapCfg) (w : World)
    (k : Nat) (data : List (List Nat)) (hk : 1 ≤ k) (hk200 : k ≤ 200)
    (hq : Event.smtpQuit ∈ (main smtpconf imapconf w).trace)
    (hbefore : ∀ a < k - 1, missAttempt w a)
    (hsel : w.imapSelect (k - 1) = none) (hsea : w.imapSearch (k - 1) = Except.ok data)
    (hlast : data.getLastD [] ≠ []) :
    (main smtpconf imapconf w).exitCode = 0 ∧
    ∃ pre post, (main smtpconf imapconf w).trace =
        pre ++ Event.stdout (report imapconf w.sinceEnd) :: post ∧
      pollEvents pre = completeAttempts smtpconf w.now k ∧ slept pre = k ∧
      pollEvents post = [] := by
  obtain ⟨h1, _, h3⟩ := pollLoop_found smtpconf imapconf w w.now (k - 1) data (by omega)
    hbefore hsel hsea hlast 200 [] NewSeqSet (le_refl _) (by omega) rfl
  have hk' : k - 1 + 1 - (200 - 200) = k := by omega
  rw [hk'] at h3
  exact split_at_report smtpconf imapconf w k hq h1 h3

/-- C10, amended, at a run whose first search returns the identifier 7 and
then an empty response, and whose second search returns the identifier 7:
polling stops at attempt 2, after two sleeps. -/
theorem C10_one_sleep_per_attempt_witness :
    Event.smtpQuit ∈ (main smtpEx imapEx worldTwoResponses).trace ∧
    (∀ a < 2 - 1, missAttempt worldTwoResponses a) ∧
    worldTwoResponses.imapSelect (2 - 1) = none ∧
    worldTwoResponses.imapSearch (2 - 1) = Except.ok [[7]] ∧
    ([[7]] : List (List Nat)).getLastD [] ≠ [] ∧
    ((main smtpEx imapEx worldTwoResponses).exitCode = 0 ∧
    ∃ pre post, (main smtpEx imapEx worldTwoResponses).trace =
        pre ++ Event.stdout (report imapEx worldTwoResponses.sinceEnd) :: post ∧
      pollEvents pre = completeAttempts smtpEx worldTwoResponses.now 2 ∧ slept pre = 2 ∧
      pollEvents post = []) :=
  ⟨by decide,
   fun a ha => by
    have h0 : a = 0 := by omega
    subst h0
    exact ⟨rfl, [[7], []], rfl, rfl⟩,
   rfl, rfl, by decide,
   C10_one_sleep_per_attempt smtpEx imapEx worldTwoResponses 2 [[7]] (by decide) (by decide)
     (by decide)
     (fun a ha => by
       have h0 : a = 0 := by omega
       subst h0
       exact ⟨rfl, [[7], []], rfl, rfl⟩)
     rfl rfl (by decide)⟩

end MailMonitoring
